import Mathlib

/-!
Verification of the Cinematic Image Engine pixel-processing core.

This file is a shallow embedding, in exact rational arithmetic, of the
pixel-processing and spatial-convolution engine of the CinematicImageEngine
OpenFX plugin:

* `Utils` embeds Utils.h (smoothstep, luminance, mix, the sliding-window box
  blurs and the three-pass Gaussian approximation);
* one namespace per processing module embeds the corresponding header
  (TonalEngine, HighlightProtection, FilmGrain, DreamyMist, CinematicGlow,
  AnamorphicStreak, Halation, Vignette, ...);
* `PipelineProcessor.process` embeds
  PipelineProcessor::multiThreadProcessImages from CinematicImageEngine.cpp
  (apron computation, source fetch with replicate-edge clamping, the per-pixel
  stage, the spatial-effect stages in their fixed order, and the final window
  copy);
* `CinematicPlugin.isIdentity` embeds the identity query.

Modelling conventions:

* C float/double values are modelled as exact rationals (ℚ); decimal literals
  of the source appear verbatim.  Theorems about concrete numeric outcomes are
  therefore statements about the code in exact arithmetic.
* C int values are modelled as ℤ (buffer-local indices, which are nonnegative,
  as ℕ).  Casts from floating point to int truncate toward zero (`truncQ`).
* uint32_t arithmetic (the grain and dither hashes) is modelled as ℕ reduced
  mod 2^32.
* libm calls whose exact values are not rational (powf, sqrtf, tanhf, exp2f,
  cosf, sinf) are abstracted as a `MathOps` record threaded through the
  definitions; theorems assume only facts that are true of the real functions
  (and of their correctly-rounded float counterparts), e.g. pow x 1 = x.
* std::vector pixel buffers are modelled as total functions ℕ → ℕ → pixel;
  each imperative pass writes a fresh buffer and no pass reads its own output
  (the source's no-alias contract), so function composition is the exact value
  semantics of the buffer pipeline.
-/

/-- Truncation of a rational toward zero: the semantics of a C cast from a
floating-point value to int.  (Lean's `Int` division truncates toward zero.) -/
def truncQ (q : ℚ) : ℤ := q.num / (q.den : ℤ)

/-- A pixel's three active colour channels. -/
structure RGB where
  r : ℚ
  g : ℚ
  b : ℚ
deriving DecidableEq, Repr

/-- A buffer pixel: RGB plus the pass-through fourth channel. -/
structure Pix where
  r : ℚ
  g : ℚ
  b : ℚ
  a : ℚ
deriving DecidableEq, Repr

/-- The RGB part of a buffer pixel. -/
def Pix.rgb (p : Pix) : RGB := ⟨p.r, p.g, p.b⟩

/-- Abstracted libm operations used by the modules.  Each field stands for the
corresponding C math-library function; theorems only assume properties that
hold for the real-valued functions. -/
structure MathOps where
  pw : ℚ → ℚ → ℚ
  sqrt : ℚ → ℚ
  tanh : ℚ → ℚ
  exp2 : ℚ → ℚ
  cos : ℚ → ℚ
  sin : ℚ → ℚ

namespace Utils

/-- Utils::smoothstep from Utils.h.  Degenerates to a hard step when
edge1 <= edge0; otherwise the clamped cubic Hermite interpolant. -/
def smoothstep (edge0 edge1 x : ℚ) : ℚ :=
  if edge1 ≤ edge0 then (if edge1 ≤ x then 1 else 0)
  else
    let t := max 0 (min 1 ((x - edge0) / (edge1 - edge0)))
    t * t * (3 - 2 * t)

/-- Utils::getLuminance: the shared Rec.709-style luminance. -/
def getLuminance (r g b : ℚ) : ℚ := 0.2126 * r + 0.7152 * g + 0.0722 * b

/-- Utils::mix: linear interpolation x*(1-a) + y*a. -/
def mix (x y a : ℚ) : ℚ := x * (1 - a) + y * a

/-- Luminance of a buffer pixel. -/
def lumP (p : Pix) : ℚ := getLuminance p.r p.g p.b

/-- Luminance of an RGB triple. -/
def lumRGB (c : RGB) : ℚ := getLuminance c.r c.g c.b

theorem smoothstep_nonneg (e0 e1 x : ℚ) : 0 ≤ smoothstep e0 e1 x := by
  unfold smoothstep
  split
  · split <;> norm_num
  · dsimp only
    have h0 : (0 : ℚ) ≤ max 0 (min 1 ((x - e0) / (e1 - e0))) := le_max_left _ _
    have h1 : max 0 (min 1 ((x - e0) / (e1 - e0))) ≤ 1 := by
      apply max_le (by norm_num) (min_le_left _ _)
    set t := max 0 (min 1 ((x - e0) / (e1 - e0)))
    nlinarith

theorem smoothstep_le_one (e0 e1 x : ℚ) : smoothstep e0 e1 x ≤ 1 := by
  unfold smoothstep
  split
  · split <;> norm_num
  · dsimp only
    have h0 : (0 : ℚ) ≤ max 0 (min 1 ((x - e0) / (e1 - e0))) := le_max_left _ _
    have h1 : max 0 (min 1 ((x - e0) / (e1 - e0))) ≤ 1 := by
      apply max_le (by norm_num) (min_le_left _ _)
    set t := max 0 (min 1 ((x - e0) / (e1 - e0)))
    nlinarith [sq_nonneg (1 - t)]

theorem getLuminance_nonneg {r g b : ℚ} (hr : 0 ≤ r) (hg : 0 ≤ g) (hb : 0 ≤ b) :
    0 ≤ getLuminance r g b := by
  unfold getLuminance
  nlinarith

end Utils

/-- C10.  Smoothstep range invariant: Utils::smoothstep always returns a value
in the closed interval [0, 1]; in the degenerate branch (edge1 <= edge0) it
returns exactly 0 or 1 (1 precisely when x >= edge1), and otherwise it returns
t^2*(3-2t) for t the argument clamped to [0, 1]. -/
theorem claim_C10 (edge0 edge1 x : ℚ) :
    (0 ≤ Utils.smoothstep edge0 edge1 x ∧ Utils.smoothstep edge0 edge1 x ≤ 1) ∧
    (edge1 ≤ edge0 →
      Utils.smoothstep edge0 edge1 x = (if edge1 ≤ x then 1 else 0)) ∧
    (¬ edge1 ≤ edge0 →
      Utils.smoothstep edge0 edge1 x =
        (max 0 (min 1 ((x - edge0) / (edge1 - edge0)))) ^ 2 *
          (3 - 2 * max 0 (min 1 ((x - edge0) / (edge1 - edge0))))) := by
  refine ⟨⟨Utils.smoothstep_nonneg _ _ _, Utils.smoothstep_le_one _ _ _⟩, ?_, ?_⟩
  · intro h
    unfold Utils.smoothstep
    simp [h]
  · intro h
    unfold Utils.smoothstep
    simp only [if_neg h]
    ring

/-- Witness for C10: the degenerate-branch implication instantiated at
edge0 = 1, edge1 = 0, x = 2 (and the range conjunct there). -/
theorem claim_C10_witness :
    (0 ≤ Utils.smoothstep 1 0 2 ∧ Utils.smoothstep 1 0 2 ≤ 1) ∧
    Utils.smoothstep 1 0 2 = 1 := by
  refine ⟨(claim_C10 1 0 2).1, ?_⟩
  have h := (claim_C10 1 0 2).2.1 (by norm_num)
  rw [h]
  norm_num

namespace HighlightProtection

/-- HighlightProtection::Params. -/
structure Params where
  threshold : ℚ
  rolloff : ℚ
  preserveColor : Bool

/-- The compress lambda inside HighlightProtection::processPixel:
below threshold the value passes through, above it the value is scaled by
1/(1 + rolloff*(val - threshold)). -/
def compress (p : Params) (val : ℚ) : ℚ :=
  if val < p.threshold then val
  else val / (1 + p.rolloff * (val - p.threshold))

/-- HighlightProtection::processPixel. -/
def processPixel (p : Params) (c : RGB) : RGB :=
  let epsilon : ℚ := 1e-7
  if p.preserveColor then
    let L := 0.2126 * c.r + 0.7152 * c.g + 0.0722 * c.b
    let Lnew := compress p L
    let ratioVal := Lnew / max L epsilon
    ⟨c.r * ratioVal, c.g * ratioVal, c.b * ratioVal⟩
  else
    ⟨compress p c.r, compress p c.g, compress p c.b⟩

end HighlightProtection

/-- The spec's highlight-compression formula f(x) = x/(1 + k*max(x-threshold,0)). -/
def hlpSpec (th k x : ℚ) : ℚ := x / (1 + k * max (x - th) 0)

/-- C6.  Highlight Protection formula and scenario: the compress helper equals
the spec formula f(x) = x/(1+k*max(x-threshold,0)); with preserveColor off it
is applied per channel, with preserveColor on it is applied to the luminance
and the result reapplied by ratio; and for threshold = 1, rolloff = 2,
preserveColor = true, any pixel of luminance 2 has compressed luminance 2/3
and every channel scaled by 1/3. -/
theorem claim_C6 :
    (∀ (p : HighlightProtection.Params) (x : ℚ),
        HighlightProtection.compress p x = hlpSpec p.threshold p.rolloff x) ∧
    (∀ (p : HighlightProtection.Params) (c : RGB), p.preserveColor = false →
        HighlightProtection.processPixel p c =
          ⟨hlpSpec p.threshold p.rolloff c.r,
           hlpSpec p.threshold p.rolloff c.g,
           hlpSpec p.threshold p.rolloff c.b⟩) ∧
    (∀ (p : HighlightProtection.Params) (c : RGB), p.preserveColor = true →
        HighlightProtection.processPixel p c =
          ⟨c.r * (hlpSpec p.threshold p.rolloff (Utils.lumRGB c) /
                    max (Utils.lumRGB c) 1e-7),
           c.g * (hlpSpec p.threshold p.rolloff (Utils.lumRGB c) /
                    max (Utils.lumRGB c) 1e-7),
           c.b * (hlpSpec p.threshold p.rolloff (Utils.lumRGB c) /
                    max (Utils.lumRGB c) 1e-7)⟩) ∧
    (∀ c : RGB, Utils.lumRGB c = 2 →
        HighlightProtection.compress ⟨1, 2, true⟩ (Utils.lumRGB c) = 2 / 3 ∧
        HighlightProtection.processPixel ⟨1, 2, true⟩ c =
          ⟨c.r * (1 / 3), c.g * (1 / 3), c.b * (1 / 3)⟩) := by
  have hcomp : ∀ (p : HighlightProtection.Params) (x : ℚ),
      HighlightProtection.compress p x = hlpSpec p.threshold p.rolloff x := by
    intro p x
    unfold HighlightProtection.compress hlpSpec
    by_cases h : x < p.threshold
    · rw [if_pos h, max_eq_right (by linarith)]
      norm_num
    · rw [if_neg h, max_eq_left (by push_neg at h; linarith)]
  refine ⟨hcomp, ?_, ?_, ?_⟩
  · intro p c h
    unfold HighlightProtection.processPixel
    rw [if_neg (by simp [h]), hcomp, hcomp, hcomp]
  · intro p c h
    unfold HighlightProtection.processPixel
    rw [if_pos (by simp [h])]
    dsimp only
    rw [hcomp]
    rfl
  · intro c hL
    have hL2 : 0.2126 * c.r + 0.7152 * c.g + 0.0722 * c.b = 2 := hL
    constructor
    · rw [hL, hcomp]
      unfold hlpSpec
      norm_num
    · unfold HighlightProtection.processPixel
      rw [if_pos rfl]
      dsimp only
      rw [hL2]
      rw [show HighlightProtection.compress ⟨1, 2, true⟩ 2 = 2 / 3 by
        unfold HighlightProtection.compress; norm_num]
      norm_num

/-- Witness for C6: the luminance-2 scenario at the concrete pixel (2, 2, 2). -/
theorem claim_C6_witness :
    Utils.lumRGB ⟨2, 2, 2⟩ = 2 ∧
    HighlightProtection.processPixel ⟨1, 2, true⟩ ⟨2, 2, 2⟩ =
      ⟨2 * (1 / 3), 2 * (1 / 3), 2 * (1 / 3)⟩ := by
  have hL : Utils.lumRGB ⟨2, 2, 2⟩ = 2 := by
    unfold Utils.lumRGB Utils.getLuminance; norm_num
  exact ⟨hL, (claim_C6.2.2.2 ⟨2, 2, 2⟩ hL).2⟩

namespace TonalEngine

/-- TonalEngine::Params. -/
structure Params where
  contrast : ℚ
  pivot : ℚ
  strength : ℚ
  blackFloor : ℚ
  highlightContrast : ℚ
  softClip : ℚ

/-- TonalEngine::processPixel.  std::pow is the abstract ops.pw. -/
def processPixel (ops : MathOps) (p : Params) (c : RGB) : RGB :=
  if p.strength ≤ 0 then c
  else
    let L := 0.2126 * c.r + 0.7152 * c.g + 0.0722 * c.b
    let epsilon : ℚ := 1e-7
    let safePivot := max p.pivot 1e-4
    let Lmapped :=
      if L ≤ safePivot then
        ops.pw (max (L / safePivot) epsilon) p.contrast * safePivot
      else
        let range0 := if 1 - safePivot < epsilon then epsilon else 1 - safePivot
        let Ln := (L - safePivot) / range0
        let hContrast := max p.highlightContrast 0.01
        safePivot + ops.pw (max Ln epsilon) hContrast * range0
    let str := min (max p.strength 0) 1
    let Lout1 := L * (1 - str) + Lmapped * str
    let Lout2 := if 0 < p.blackFloor then max Lout1 p.blackFloor else Lout1
    let Lout3 :=
      if 0 < p.softClip then
        let k := p.softClip * 2
        if 0 < Lout2 ∧ Lout2 < 1 then
          if 1 - Lout2 < k * 0.5 then
            1 - k * 0.5 / (1 + (k * 0.5 - (1 - Lout2)) * 4)
          else Lout2
        else if 1 ≤ Lout2 then
          min (1 - 1 / (1 + (Lout2 - 1 + 1) * (1 + k))) 1
        else Lout2
      else Lout2
    let ratioVal := Lout3 / max L epsilon
    ⟨c.r * ratioVal, c.g * ratioVal, c.b * ratioVal⟩

end TonalEngine

/-- C7.  Tonal Engine identity scenario: with contrast = 1,
highlightContrast = 1, pivot = 0.18, strength = 1, blackFloor = 0,
softClip = 0, processPixel is the identity on every grey pixel
r = g = b = v for v in 0, 0.18, 0.5, 1, 2 (exactly, in exact arithmetic),
for any pow implementation satisfying pow x 1 = x.  The values 0 and 0.18
exercise the below-pivot branch (0 through the epsilon floor), the others the
above-pivot branch. -/
theorem claim_C7 (ops : MathOps) (hpw : ∀ x : ℚ, ops.pw x 1 = x) :
    ∀ v : ℚ, v ∈ ({0, 0.18, 0.5, 1, 2} : Set ℚ) →
      TonalEngine.processPixel ops ⟨1, 0.18, 1, 0, 1, 0⟩ ⟨v, v, v⟩ = ⟨v, v, v⟩ := by
  intro v hv
  rcases hv with h | h | h | h | h <;> subst h <;>
    · unfold TonalEngine.processPixel
      rw [if_neg (by norm_num)]
      dsimp only
      norm_num [max_def, min_def, hpw]

/-- A concrete MathOps instance for witnesses: pow returns its base (so that
pow x 1 = x holds definitionally); the remaining fields are arbitrary. -/
def opsPowId : MathOps :=
  ⟨fun x _ => x, fun _ => 0, fun _ => 0, fun _ => 0, fun _ => 1, fun _ => 0⟩

/-- Witness for C7: the identity scenario at v = 0.5 with a concrete pow. -/
theorem claim_C7_witness :
    (∀ x : ℚ, opsPowId.pw x 1 = x) ∧
    (0.5 : ℚ) ∈ ({0, 0.18, 0.5, 1, 2} : Set ℚ) ∧
    TonalEngine.processPixel opsPowId ⟨1, 0.18, 1, 0, 1, 0⟩ ⟨0.5, 0.5, 0.5⟩ =
      ⟨0.5, 0.5, 0.5⟩ :=
  ⟨fun _ => rfl, by norm_num,
    claim_C7 opsPowId (fun _ => rfl) 0.5 (by norm_num)⟩

namespace Utils

/-- The sliding-window accumulator of Utils::boxBlurH (per channel).
`slideSum row w r x` is the value of the accumulator when the output at
column x is written: seeded with row[0]*(r+1) plus rows 1..r (indices clamped
to w-1), then advanced by adding row[min(x+r+1, w-1)] and subtracting
row[max(x-r, 0)] (truncated ℕ subtraction is exactly C's max(x-r, 0)). -/
def slideSum (row : ℕ → ℚ) (w r : ℕ) : ℕ → ℚ
  | 0 => row 0 * (r + 1) + ∑ i ∈ Finset.Icc 1 r, row (min i (w - 1))
  | x + 1 => slideSum row w r x + row (min (x + r + 1) (w - 1)) - row (x - r)

/-- Utils::boxBlurH: horizontal box blur, replicate-edge, alpha passthrough.
For r < 1 the C code memcpy-copies the buffer. -/
def boxBlurH (src : ℕ → ℕ → Pix) (w h r : ℕ) : ℕ → ℕ → Pix :=
  if r < 1 then src
  else fun y x =>
    ⟨slideSum (fun i => (src y i).r) w r x * (1 / (2 * (r : ℚ) + 1)),
     slideSum (fun i => (src y i).g) w r x * (1 / (2 * (r : ℚ) + 1)),
     slideSum (fun i => (src y i).b) w r x * (1 / (2 * (r : ℚ) + 1)),
     (src y x).a⟩

/-- Utils::boxBlurV: vertical box blur.  The strip-based (8-column) traversal
of the C code is a cache optimisation only; per column the accumulator follows
exactly the same recurrence as the horizontal pass, transposed. -/
def boxBlurV (src : ℕ → ℕ → Pix) (w h r : ℕ) : ℕ → ℕ → Pix :=
  if r < 1 then src
  else fun y x =>
    ⟨slideSum (fun j => (src j x).r) h r y * (1 / (2 * (r : ℚ) + 1)),
     slideSum (fun j => (src j x).g) h r y * (1 / (2 * (r : ℚ) + 1)),
     slideSum (fun j => (src j x).b) h r y * (1 / (2 * (r : ℚ) + 1)),
     (src y x).a⟩

/-- std::round semantics: round half away from zero. -/
def roundAway (q : ℚ) : ℤ := if 0 ≤ q then ⌊q + 1 / 2⌋ else -⌊-q + 1 / 2⌋

/-- Utils::boxRadiiForGaussian: the three box radii of the ideal-box-width
method.  floor(sqrt(12*sigma^2+1)) is computed exactly
(Nat.sqrt ∘ floor agrees with floor ∘ sqrt on nonnegative rationals; for the
call sites sigma = r/2 with integer r, 12*sigma^2+1 = 3r^2+1 is an integer
that float arithmetic also represents exactly). -/
def boxRadiiForGaussian (sigma : ℚ) : ℕ × ℕ × ℕ :=
  let wIdealFloor : ℕ := Nat.sqrt (Int.toNat ⌊12 * sigma ^ 2 + 1⌋)
  let wl : ℕ := if wIdealFloor % 2 = 0 then wIdealFloor - 1 else wIdealFloor
  let wu : ℕ := wl + 2
  let mIdeal : ℚ :=
    (12 * sigma ^ 2 - (wl : ℚ) * (wl : ℚ) * 3 - (wl : ℚ) * 4 - 3) /
      (-4 * (wl : ℚ) - 4)
  let m : ℤ := roundAway mIdeal
  (((if (0 : ℤ) < m then wl else wu) - 1) / 2,
   ((if (1 : ℤ) < m then wl else wu) - 1) / 2,
   ((if (2 : ℤ) < m then wl else wu) - 1) / 2)

/-- Utils::gaussianBlur (3-argument version): three successive separable box
blurs.  The ping-pong through dst/tmp and the in-place (src == dst) copy do
not change any value — no pass reads the buffer it writes — so the value
semantics is plain composition of the six passes. -/
def gaussianBlur (src : ℕ → ℕ → Pix) (w h r : ℕ) : ℕ → ℕ → Pix :=
  if r < 1 then src
  else
    let sigma : ℚ := if (r : ℚ) / 2 < 0.1 then 0.1 else (r : ℚ) / 2
    let rd := boxRadiiForGaussian sigma
    boxBlurV
      (boxBlurH
        (boxBlurV
          (boxBlurH
            (boxBlurV (boxBlurH src w h rd.1) w h rd.1)
            w h rd.2.1)
          w h rd.2.1)
        w h rd.2.2)
      w h rd.2.2

theorem sum_shift_step (g : ℕ → ℚ) (r x : ℕ) :
    (∑ i ∈ Finset.range (r + 1), g (x + 1 + i)) =
      (∑ i ∈ Finset.range (r + 1), g (x + i)) + g (x + r + 1) - g x := by
  have h1 : (∑ i ∈ Finset.range (r + 2), g (x + i)) =
      (∑ i ∈ Finset.range (r + 1), g (x + i)) + g (x + (r + 1)) :=
    Finset.sum_range_succ _ _
  have h2 : (∑ i ∈ Finset.range (r + 2), g (x + i)) =
      (∑ i ∈ Finset.range (r + 1), g (x + (i + 1))) + g (x + 0) :=
    Finset.sum_range_succ' _ _
  have h3 : (∑ i ∈ Finset.range (r + 1), g (x + (i + 1))) =
      ∑ i ∈ Finset.range (r + 1), g (x + 1 + i) := by
    apply Finset.sum_congr rfl
    intro i _
    congr 1
    omega
  rw [h3] at h2
  have := h1.symm.trans h2
  rw [show x + (r + 1) = x + r + 1 by omega, show x + 0 = x by omega] at this
  linarith

theorem sum_trunc_step (row : ℕ → ℚ) (r x : ℕ) :
    (∑ i ∈ Finset.range r, row (x + 1 - (1 + i))) =
      (∑ i ∈ Finset.range r, row (x - (1 + i))) + row x - row (x - r) := by
  cases r with
  | zero => simp
  | succ n =>
    have e1 : (∑ i ∈ Finset.range (n + 1), row (x + 1 - (1 + i))) =
        ∑ i ∈ Finset.range (n + 1), row (x - i) := by
      apply Finset.sum_congr rfl
      intro i _
      congr 1
      omega
    have e2 : (∑ i ∈ Finset.range (n + 1), row (x - i)) =
        (∑ i ∈ Finset.range n, row (x - (i + 1))) + row (x - 0) :=
      Finset.sum_range_succ' _ _
    have e3 : (∑ i ∈ Finset.range (n + 1), row (x - (1 + i))) =
        (∑ i ∈ Finset.range n, row (x - (1 + i))) + row (x - (1 + n)) :=
      Finset.sum_range_succ _ _
    have e4 : (∑ i ∈ Finset.range n, row (x - (i + 1))) =
        ∑ i ∈ Finset.range n, row (x - (1 + i)) := by
      apply Finset.sum_congr rfl
      intro i _
      congr 1
      omega
    rw [e1, e2, e4, e3, show x - 0 = x by omega, show x - (1 + n) = x - (n + 1) by omega]
    ring

/-- The accumulator at column x < w equals the clamped-window sum: the r+1
samples at and to the right of x (clamped to w-1) plus the r samples to the
left of x (clamped to 0 by truncated subtraction). -/
theorem slideSum_rep (row : ℕ → ℚ) (w r : ℕ) :
    ∀ x, x < w →
      slideSum row w r x =
        (∑ i ∈ Finset.range (r + 1), row (min (x + i) (w - 1))) +
          ∑ i ∈ Finset.range r, row (x - (1 + i)) := by
  intro x
  induction x with
  | zero =>
    intro hw
    show row 0 * (r + 1) + (∑ i ∈ Finset.Icc 1 r, row (min i (w - 1))) = _
    have hIcc : (∑ i ∈ Finset.Icc 1 r, row (min i (w - 1))) =
        ∑ i ∈ Finset.range r, row (min (1 + i) (w - 1)) := by
      rw [← Nat.Ico_succ_right, Finset.sum_Ico_eq_sum_range]
      simp
    have hA : (∑ i ∈ Finset.range (r + 1), row (min (0 + i) (w - 1))) =
        (∑ i ∈ Finset.range r, row (min (0 + (i + 1)) (w - 1))) + row (min (0 + 0) (w - 1)) :=
      Finset.sum_range_succ' _ _
    have hA2 : (∑ i ∈ Finset.range r, row (min (0 + (i + 1)) (w - 1))) =
        ∑ i ∈ Finset.range r, row (min (1 + i) (w - 1)) := by
      apply Finset.sum_congr rfl
      intro i _
      congr 2
      omega
    have hB : (∑ i ∈ Finset.range r, row (0 - (1 + i))) =
        ∑ _i ∈ Finset.range r, row 0 := by
      apply Finset.sum_congr rfl
      intro i _
      congr 1
      omega
    have hmin0 : min (0 + 0) (w - 1) = 0 := by omega
    rw [hIcc, hA, hA2, hB, hmin0, Finset.sum_const, Finset.card_range]
    push_cast
    ring
  | succ x ih =>
    intro hw
    have hx : x < w := Nat.lt_of_succ_lt hw
    show slideSum row w r x + row (min (x + r + 1) (w - 1)) - row (x - r) = _
    rw [ih hx]
    have hA := sum_shift_step (fun k => row (min k (w - 1))) r x
    have hB := sum_trunc_step row r x
    have hmx : min x (w - 1) = x := by omega
    rw [hmx] at hA
    have hgoalA : (∑ i ∈ Finset.range (r + 1), row (min (x + 1 + i) (w - 1))) =
        (∑ i ∈ Finset.range (r + 1), row (min (x + i) (w - 1))) +
          row (min (x + r + 1) (w - 1)) - row x := hA
    rw [hgoalA, hB]
    ring

theorem slideSum_const (row : ℕ → ℚ) (w r : ℕ) (c : ℚ)
    (hrow : ∀ i, i < w → row i = c) :
    ∀ x, x < w → slideSum row w r x = (2 * (r : ℚ) + 1) * c := by
  intro x hx
  have hw1 : 1 ≤ w := Nat.one_le_of_lt (Nat.lt_of_le_of_lt (Nat.zero_le x) hx)
  rw [slideSum_rep row w r x hx]
  have hA : (∑ i ∈ Finset.range (r + 1), row (min (x + i) (w - 1))) =
      ∑ _i ∈ Finset.range (r + 1), c := by
    apply Finset.sum_congr rfl
    intro i _
    exact hrow _ (by omega)
  have hB : (∑ i ∈ Finset.range r, row (x - (1 + i))) =
      ∑ _i ∈ Finset.range r, c := by
    apply Finset.sum_congr rfl
    intro i _
    exact hrow _ (by omega)
  rw [hA, hB, Finset.sum_const, Finset.sum_const, Finset.card_range, Finset.card_range]
  push_cast
  ring

theorem slideSum_nonneg (row : ℕ → ℚ) (w r : ℕ)
    (hrow : ∀ i, 0 ≤ row i) :
    ∀ x, x < w → 0 ≤ slideSum row w r x := by
  intro x hx
  rw [slideSum_rep row w r x hx]
  have hA : 0 ≤ ∑ i ∈ Finset.range (r + 1), row (min (x + i) (w - 1)) :=
    Finset.sum_nonneg fun i _ => hrow _
  have hB : 0 ≤ ∑ i ∈ Finset.range r, row (x - (1 + i)) :=
    Finset.sum_nonneg fun i _ => hrow _
  linarith

theorem invK_nonneg (r : ℕ) : 0 ≤ (1 : ℚ) / (2 * (r : ℚ) + 1) := by
  positivity

/-- A buffer is flat (constant RGB) on the w×h extent. -/
def FlatOn (src : ℕ → ℕ → Pix) (w h : ℕ) (cR cG cB : ℚ) : Prop :=
  ∀ y x, y < h → x < w →
    (src y x).r = cR ∧ (src y x).g = cG ∧ (src y x).b = cB

/-- A buffer has nonnegative RGB channels everywhere. -/
def NonnegBuf (src : ℕ → ℕ → Pix) : Prop :=
  ∀ y x, 0 ≤ (src y x).r ∧ 0 ≤ (src y x).g ∧ 0 ≤ (src y x).b

theorem boxBlurH_flat {src : ℕ → ℕ → Pix} {w h : ℕ} {cR cG cB : ℚ} (r : ℕ)
    (hs : FlatOn src w h cR cG cB) : FlatOn (boxBlurH src w h r) w h cR cG cB := by
  unfold boxBlurH
  split
  · exact hs
  · intro y x hy hx
    have hrow : ∀ ch : Pix → ℚ, ∀ c : ℚ,
        (∀ y x, y < h → x < w → ch (src y x) = c) →
        slideSum (fun i => ch (src y i)) w r x = (2 * (r : ℚ) + 1) * c := by
      intro ch c hch
      exact slideSum_const _ w r c (fun i hi => hch y i hy hi) x hx
    have h2r : (2 * (r : ℚ) + 1) ≠ 0 := by positivity
    dsimp only
    refine ⟨?_, ?_, ?_⟩
    · rw [hrow Pix.r cR (fun y x hy hx => (hs y x hy hx).1)]
      field_simp
    · rw [hrow Pix.g cG (fun y x hy hx => (hs y x hy hx).2.1)]
      field_simp
    · rw [hrow Pix.b cB (fun y x hy hx => (hs y x hy hx).2.2)]
      field_simp

theorem boxBlurV_flat {src : ℕ → ℕ → Pix} {w h : ℕ} {cR cG cB : ℚ} (r : ℕ)
    (hs : FlatOn src w h cR cG cB) : FlatOn (boxBlurV src w h r) w h cR cG cB := by
  unfold boxBlurV
  split
  · exact hs
  · intro y x hy hx
    have hrow : ∀ ch : Pix → ℚ, ∀ c : ℚ,
        (∀ y x, y < h → x < w → ch (src y x) = c) →
        slideSum (fun j => ch (src j x)) h r y = (2 * (r : ℚ) + 1) * c := by
      intro ch c hch
      exact slideSum_const _ h r c (fun j hj => hch j x hj hx) y hy
    have h2r : (2 * (r : ℚ) + 1) ≠ 0 := by positivity
    dsimp only
    refine ⟨?_, ?_, ?_⟩
    · rw [hrow Pix.r cR (fun y x hy hx => (hs y x hy hx).1)]
      field_simp
    · rw [hrow Pix.g cG (fun y x hy hx => (hs y x hy hx).2.1)]
      field_simp
    · rw [hrow Pix.b cB (fun y x hy hx => (hs y x hy hx).2.2)]
      field_simp

theorem gaussianBlur_flat {src : ℕ → ℕ → Pix} {w h : ℕ} {cR cG cB : ℚ} (r : ℕ)
    (hs : FlatOn src w h cR cG cB) :
    FlatOn (gaussianBlur src w h r) w h cR cG cB := by
  unfold gaussianBlur
  split
  · exact hs
  · exact boxBlurV_flat _ (boxBlurH_flat _ (boxBlurV_flat _ (boxBlurH_flat _
      (boxBlurV_flat _ (boxBlurH_flat _ hs)))))

theorem boxBlurH_nonneg {src : ℕ → ℕ → Pix} {w h : ℕ} (r : ℕ)
    (hs : NonnegBuf src) :
    ∀ y x, x < w →
      0 ≤ (boxBlurH src w h r y x).r ∧ 0 ≤ (boxBlurH src w h r y x).g ∧
        0 ≤ (boxBlurH src w h r y x).b := by
  intro y x hx
  unfold boxBlurH
  split
  · exact ⟨(hs y x).1, (hs y x).2.1, (hs y x).2.2⟩
  · dsimp only
    refine ⟨?_, ?_, ?_⟩ <;>
      exact mul_nonneg
        (slideSum_nonneg _ w r (fun i => by
          first
          | exact (hs y i).1
          | exact (hs y i).2.1
          | exact (hs y i).2.2) x hx)
        (invK_nonneg r)

theorem boxBlurV_nonneg {src : ℕ → ℕ → Pix} {w h : ℕ} (r : ℕ)
    (hs : NonnegBuf src) :
    ∀ y x, y < h →
      0 ≤ (boxBlurV src w h r y x).r ∧ 0 ≤ (boxBlurV src w h r y x).g ∧
        0 ≤ (boxBlurV src w h r y x).b := by
  intro y x hy
  unfold boxBlurV
  split
  · exact ⟨(hs y x).1, (hs y x).2.1, (hs y x).2.2⟩
  · dsimp only
    refine ⟨?_, ?_, ?_⟩ <;>
      exact mul_nonneg
        (slideSum_nonneg _ h r (fun j => by
          first
          | exact (hs j x).1
          | exact (hs j x).2.1
          | exact (hs j x).2.2) y hy)
        (invK_nonneg r)

end Utils

/-- C9.  Blur flatness: for every buffer extent w ≥ 1, h ≥ 1, radius r ≥ 0 and
constant colour (cR, cG, cB), applying Utils::gaussianBlur (three separable
replicate-edge box-blur passes) to a buffer that is constant on the extent
yields a buffer with exactly the same constant R, G, B channels at every pixel
of the extent, borders included (exact arithmetic). -/
theorem claim_C9 (src : ℕ → ℕ → Pix) (w h r : ℕ) (cR cG cB : ℚ)
    (hw : 1 ≤ w) (hh : 1 ≤ h)
    (hs : ∀ y x, y < h → x < w →
      (src y x).r = cR ∧ (src y x).g = cG ∧ (src y x).b = cB) :
    ∀ y x, y < h → x < w →
      (Utils.gaussianBlur src w h r y x).r = cR ∧
      (Utils.gaussianBlur src w h r y x).g = cG ∧
      (Utils.gaussianBlur src w h r y x).b = cB :=
  Utils.gaussianBlur_flat r hs

/-- Witness for C9: the flatness theorem applied to the constant buffer
(1, 2, 3) of extent 2×2 with radius 1, read at the corner pixel. -/
theorem claim_C9_witness :
    (1 ≤ 2) ∧
    (Utils.gaussianBlur (fun _ _ => ⟨1, 2, 3, 1⟩) 2 2 1 0 0).r = 1 ∧
    (Utils.gaussianBlur (fun _ _ => ⟨1, 2, 3, 1⟩) 2 2 1 0 0).g = 2 ∧
    (Utils.gaussianBlur (fun _ _ => ⟨1, 2, 3, 1⟩) 2 2 1 0 0).b = 3 := by
  have h := claim_C9 (fun _ _ => ⟨1, 2, 3, 1⟩) 2 2 1 1 2 3 (by norm_num) (by norm_num)
    (fun _ _ _ _ => ⟨rfl, rfl, rfl⟩) 0 0 (by norm_num) (by norm_num)
  exact ⟨by norm_num, h.1, h.2.1, h.2.2⟩

namespace ColorIngestTweaks

/-- ColorIngestTweaks::Params. -/
structure Params where
  exposureTrim : ℚ
  chromaCeiling : ℚ
  whiteBias : ℚ
  temperature : ℚ
  tint : ℚ
  globalSaturation : ℚ
  enable : Bool

/-- ColorIngestTweaks::process (exposure trim, white balance, global
saturation, chroma ceiling, highlight white bias, in that order). -/
def process (ops : MathOps) (p : Params) (c : RGB) : RGB :=
  if ¬p.enable then c
  else
    let c1 : RGB :=
      if p.exposureTrim ≠ 0 then
        let gain := ops.exp2 p.exposureTrim
        ⟨c.r * gain, c.g * gain, c.b * gain⟩
      else c
    let c2 : RGB :=
      if p.temperature ≠ 0 ∨ p.tint ≠ 0 then
        let temp := p.temperature * 0.1
        let tnt := p.tint * 0.1
        ⟨c1.r + temp, c1.g + tnt, c1.b - temp⟩
      else c1
    let c3 : RGB :=
      if p.globalSaturation ≠ 1 then
        let luma := 0.2126 * c2.r + 0.7152 * c2.g + 0.0722 * c2.b
        ⟨luma + (c2.r - luma) * p.globalSaturation,
         luma + (c2.g - luma) * p.globalSaturation,
         luma + (c2.b - luma) * p.globalSaturation⟩
      else c2
    let c4 : RGB :=
      if p.chromaCeiling < 1 then
        let luma := 0.2126 * c3.r + 0.7152 * c3.g + 0.0722 * c3.b
        let cr := c3.r - luma
        let cg := c3.g - luma
        let cb := c3.b - luma
        let cMag := ops.sqrt (cr * cr + cg * cg + cb * cb)
        if p.chromaCeiling < cMag ∧ 0.001 < p.chromaCeiling then
          let compressed := p.chromaCeiling + ops.tanh (cMag - p.chromaCeiling) * 0.1
          let scale := compressed / cMag
          ⟨luma + cr * scale, luma + cg * scale, luma + cb * scale⟩
        else if p.chromaCeiling ≤ 0.001 then ⟨luma, luma, luma⟩
        else c3
      else c3
    if p.whiteBias ≠ 0 then
      let luma := 0.2126 * c4.r + 0.7152 * c4.g + 0.0722 * c4.b
      if 0.5 < luma then
        let factor := (luma - 0.5) * 2
        let biasStrength := p.whiteBias * 0.05 * (factor * factor)
        if 0 < p.whiteBias then
          ⟨c4.r + biasStrength, c4.g + biasStrength * 0.8, c4.b - biasStrength⟩
        else
          ⟨c4.r - |biasStrength|, c4.g - |biasStrength| * 0.2, c4.b + |biasStrength|⟩
      else c4
    else c4

end ColorIngestTweaks

namespace FilmResponse

/-- FilmResponse::Params.  (applyPreset exists in the header but is never
invoked on the render path; preset is carried but unused by processPixel.) -/
structure Params where
  enable : Bool
  amount : ℚ
  highlightWarmth : ℚ
  highlightCompression : ℚ
  midtoneColorFocus : ℚ
  shadowCoolBias : ℚ
  preset : ℤ
  crossProcess : Bool

/-- FilmResponse::processPixel: luminance-zone-weighted chroma bias. -/
def processPixel (p : Params) (c : RGB) : RGB :=
  if ¬p.enable ∨ p.amount ≤ 0 then c
  else
    let Y := 0.2126 * c.r + 0.7152 * c.g + 0.0722 * c.b
    let cR0 := c.r - Y
    let cG0 := c.g - Y
    let cB0 := c.b - Y
    if cR0 * cR0 + cG0 * cG0 + cB0 * cB0 < 1e-8 then c
    else
      let shadowW := 1 - Utils.smoothstep 0 0.3 Y
      let highlightW := Utils.smoothstep 0.7 1 Y
      let midWeight := (1 - shadowW) * (1 - highlightW)
      let shadowBias := if p.crossProcess then p.highlightWarmth else p.shadowCoolBias
      let highlightWarmthVal :=
        if p.crossProcess then p.shadowCoolBias else p.highlightWarmth
      let cS : RGB :=
        if 0 < shadowW then
          let bias := shadowBias * shadowW
          let satFactor := 1 - bias * 0.5
          let bStr := bias * 0.05
          if ¬p.crossProcess then
            ⟨cR0 * satFactor - bStr, cG0 * satFactor + bStr * 0.2,
             cB0 * satFactor + bStr * 1.5⟩
          else
            ⟨cR0 * satFactor + bStr, cG0 * satFactor + bStr * 0.5,
             cB0 * satFactor - bStr⟩
        else ⟨cR0, cG0, cB0⟩
      let cM : RGB :=
        if 0 < midWeight then
          let factor := 1 + p.midtoneColorFocus * midWeight
          ⟨cS.r * factor, cS.g * factor, cS.b * factor⟩
        else cS
      let cH : RGB :=
        if 0 < highlightW then
          let wStr := highlightWarmthVal * highlightW * 0.05
          let hComp := p.highlightCompression * highlightW
          let t : RGB :=
            if ¬p.crossProcess then
              ⟨cM.r + wStr, cM.g + wStr * 0.5, cM.b - wStr⟩
            else
              ⟨cM.r - wStr, cM.g + wStr * 0.2, cM.b + wStr * 1.5⟩
          ⟨t.r * (1 - hComp * 1), t.g * (1 - hComp * 0.5), t.b * (1 - hComp * 0.2)⟩
        else cM
      ⟨Utils.mix c.r (Y + cH.r) p.amount,
       Utils.mix c.g (Y + cH.g) p.amount,
       Utils.mix c.b (Y + cH.b) p.amount⟩

end FilmResponse

namespace ColorEnergyEngine

/-- ColorEnergyEngine::Params. -/
structure Params where
  density : ℚ
  separation : ℚ
  highlightRollOff : ℚ
  shadowBias : ℚ
  vibrance : ℚ
  enable : Bool

/-- ColorEnergyEngine::process: separation, density, vibrance on the chroma
vector, reconstructed about the unchanged luminance. -/
def process (ops : MathOps) (p : Params) (c : RGB) : RGB :=
  if ¬p.enable then c
  else
    let luma := 0.2126 * c.r + 0.7152 * c.g + 0.0722 * c.b
    if luma ≤ 0.0001 then c
    else
      let cr0 := c.r - luma
      let cg0 := c.g - luma
      let cb0 := c.b - luma
      let cSep : RGB :=
        if p.separation ≠ 0 then
          let shadowAtt := if luma < p.shadowBias then luma / p.shadowBias else 1
          let highAtt :=
            if 1e-6 < p.highlightRollOff ∧ 1 - p.highlightRollOff < luma then
              max ((1 - luma) / p.highlightRollOff) 0
            else 1
          let sepFactor := 1 + p.separation * (shadowAtt * highAtt)
          ⟨cr0 * sepFactor, cg0 * sepFactor, cb0 * sepFactor⟩
        else ⟨cr0, cg0, cb0⟩
      let cDen : RGB :=
        if p.density ≠ 1 then
          let sat := ops.sqrt (cSep.r * cSep.r + cSep.g * cSep.g + cSep.b * cSep.b)
          if 0.0001 < sat then
            let scale := ops.pw sat p.density / sat
            ⟨cSep.r * scale, cSep.g * scale, cSep.b * scale⟩
          else cSep
        else cSep
      let cVib : RGB :=
        if p.vibrance ≠ 1 then
          let sat := ops.sqrt (cDen.r * cDen.r + cDen.g * cDen.g + cDen.b * cDen.b)
          if 0.0001 < sat then
            let satNorm := min (sat * 2) 1
            let boost := Utils.mix p.vibrance 1 satNorm
            ⟨cDen.r * boost, cDen.g * boost, cDen.b * boost⟩
          else cDen
        else cDen
      ⟨luma + cVib.r, luma + cVib.g, luma + cVib.b⟩

end ColorEnergyEngine

namespace SplitToning

/-- SplitToning::Params.  The Pb/Pr fields are the per-frame hue vectors
pre-computed by SplitToning::precomputeVectors (cos/sin of the hue angles) in
CinematicPlugin::render before processing starts. -/
structure Params where
  enable : Bool
  strength : ℚ
  shadowHue : ℚ
  highlightHue : ℚ
  balance : ℚ
  midtoneHue : ℚ
  midtoneSaturation : ℚ
  shadowPb : ℚ
  shadowPr : ℚ
  highlightPb : ℚ
  highlightPr : ℚ
  midtonePb : ℚ
  midtonePr : ℚ

/-- SplitToning::processPixel: additive zone tint, luminance preserved by
solving the green channel. -/
def processPixel (p : Params) (c : RGB) : RGB :=
  if ¬p.enable ∨ p.strength ≤ 0 then c
  else
    let L := 0.2126 * c.r + 0.7152 * c.g + 0.0722 * c.b
    let shadowW0 := 1 - Utils.smoothstep 0 0.4 L
    let highlightW0 := Utils.smoothstep 0.6 1 L
    let midtoneW := (1 - shadowW0) * (1 - highlightW0)
    let shadowW := shadowW0 * (1 - p.balance)
    let highlightW := highlightW0 * (1 + p.balance)
    let dPb0 := (p.shadowPb * shadowW + p.highlightPb * highlightW) * p.strength * 0.05
    let dPr0 := (p.shadowPr * shadowW + p.highlightPr * highlightW) * p.strength * 0.05
    let dPb :=
      if 0 < p.midtoneSaturation then
        dPb0 + p.midtonePb * (p.midtoneSaturation * midtoneW * p.strength * 0.05)
      else dPb0
    let dPr :=
      if 0 < p.midtoneSaturation then
        dPr0 + p.midtonePr * (p.midtoneSaturation * midtoneW * p.strength * 0.05)
      else dPr0
    let newR := c.r + dPr / 0.6350
    let newB := c.b + dPb / 0.5389
    let newG := (L - 0.2126 * newR - 0.0722 * newB) / 0.7152
    ⟨newR, newG, newB⟩

end SplitToning

/-- The uint32_t cast of a C int: two's-complement reduction mod 2^32. -/
def u32ofInt (i : ℤ) : ℕ := (i % 4294967296).toNat

namespace FilmGrain

/-- FilmGrain::Params. -/
structure Params where
  enable : Bool
  amount : ℚ
  size : ℚ
  shadowWeight : ℚ
  midWeight : ℚ
  highlightWeight : ℚ
  grainType : ℤ
  chromatic : Bool
  temporalSpeed : ℚ

/-- FilmGrain::hash2D: the fast 32-bit integer spatial hash, returning a
uniform sample in [0, 1). -/
def hash2D (x y seed : ℤ) : ℚ :=
  let h0 : ℕ := (u32ofInt x * 374761393 + u32ofInt y * 668265263) % 4294967296
  let h1 : ℕ := (h0 ^^^ (h0 >>> 13)) ^^^ u32ofInt seed
  let h2 : ℕ := (h1 * 1274126177) % 4294967296
  ((h2 &&& 16777215 : ℕ) : ℚ) / 16777216

/-- FilmGrain::gaussianApprox: two uniforms summed into triangular noise. -/
def gaussianApprox (n1 n2 : ℚ) : ℚ := n1 + n2 - 1

/-- FilmGrain::computeWeight: the 3-zone shadow/mid/highlight blend. -/
def computeWeight (L : ℚ) (p : Params) : ℚ :=
  if L < 0.5 then
    let t := Utils.smoothstep 0 0.5 L
    min 1 (max 0 p.shadowWeight) * (1 - t) + min 1 (max 0 p.midWeight) * t
  else
    let t := Utils.smoothstep 0.5 1 L
    min 1 (max 0 p.midWeight) * (1 - t) + min 1 (max 0 p.highlightWeight) * t

/-- The temporally-quantized effective seed of FilmGrain::applyGrain: for
temporalSpeed < 1 the frame seed is quantized to multiples of
interval = max(1, 24*(1-temporalSpeed)) by truncating integer division. -/
def effectiveSeedOf (frameSeed : ℤ) (temporalSpeed : ℚ) : ℤ :=
  if temporalSpeed < 1 then
    let interval : ℚ := max 1 (24 * (1 - temporalSpeed))
    truncQ ((frameSeed : ℚ) / interval) * truncQ interval
  else frameSeed

/-- FilmGrain::applyGrain. -/
def applyGrain (p : Params) (x y frameSeed imageW imageH : ℤ) (c : RGB) : RGB :=
  if ¬p.enable ∨ p.amount ≤ 0 then c
  else
    let minDim : ℚ := ((min imageW imageH : ℤ) : ℚ)
    let rawSize := max 0.001 p.size
    let scale0 := (0.0015 + rawSize * 0.005) * minDim
    let scale := if scale0 < 1 then 1 else scale0
    let gx : ℤ := truncQ ((x : ℚ) / scale)
    let gy : ℤ := truncQ ((y : ℚ) / scale)
    let effectiveSeed := effectiveSeedOf frameSeed p.temporalSpeed
    if p.chromatic then
      let grainR := gaussianApprox (hash2D gx gy effectiveSeed)
        (hash2D (gx + 17) (gy + 29) effectiveSeed)
      let grainG := gaussianApprox (hash2D gx gy (effectiveSeed + 7))
        (hash2D (gx + 17) (gy + 29) (effectiveSeed + 7))
      let grainB := gaussianApprox (hash2D gx gy (effectiveSeed + 13))
        (hash2D (gx + 17) (gy + 29) (effectiveSeed + 13))
      let L := 0.2126 * c.r + 0.7152 * c.g + 0.0722 * c.b
      let strength := p.amount * computeWeight L p
      ⟨c.r * (1 + grainR * strength), c.g * (1 + grainG * strength),
       c.b * (1 + grainB * strength)⟩
    else
      let grain := gaussianApprox (hash2D gx gy effectiveSeed)
        (hash2D (gx + 17) (gy + 29) effectiveSeed)
      let L := 0.2126 * c.r + 0.7152 * c.g + 0.0722 * c.b
      let strength := p.amount * computeWeight L p
      let grainSignal := 1 + grain * strength
      ⟨c.r * grainSignal, c.g * grainSignal, c.b * grainSignal⟩

end FilmGrain

namespace Dither

/-- Dither::Params. -/
structure Params where
  enable : Bool
  amount : ℚ

/-- Dither::ditherHash: spatial hash returning a sample in [-0.5, 0.5). -/
def ditherHash (x y : ℤ) (seed : ℕ) : ℚ :=
  let h0 : ℕ := (u32ofInt x * 374761393 + u32ofInt y * 668265263) % 4294967296
  let h1 : ℕ := (h0 ^^^ (h0 >>> 13)) ^^^ seed
  let h2 : ℕ := (h1 * 1274126177) % 4294967296
  ((h2 &&& 16777215 : ℕ) : ℚ) / 16777216 - 0.5

/-- Dither::process: additive triangular-PDF noise. -/
def process (p : Params) (x y : ℤ) (c : RGB) : RGB :=
  if ¬p.enable ∨ p.amount ≤ 0 then c
  else
    let nR := ditherHash x y 0xA1B2C3D4 + ditherHash (x + 1) y 0xA1B2C3D4
    let nG := ditherHash x y 0xE5F6A7B8 + ditherHash (x + 1) y 0xE5F6A7B8
    let nB := ditherHash x y 0xC9D0E1F2 + ditherHash (x + 1) y 0xC9D0E1F2
    let scale := p.amount * (1 / 512)
    ⟨c.r + nR * scale, c.g + nG * scale, c.b + nB * scale⟩

end Dither

namespace DreamyMist

/-- DreamyMist::Params. -/
structure Params where
  enable : Bool
  strength : ℚ
  threshold : ℚ
  softness : ℚ
  depthBias : ℚ
  colorBias : ℚ
  blurRadius : ℚ

/-- DreamyMist::computeMistSource: smoothstep-isolated highlight luminance,
optionally gamma-biased, tinted warm or cool. -/
def computeMistSource (ops : MathOps) (p : Params) (c : RGB) : RGB :=
  if ¬p.enable then ⟨0, 0, 0⟩
  else
    let L := Utils.getLuminance c.r c.g c.b
    let softRange := max 0.001 p.softness
    let mask0 := Utils.smoothstep p.threshold (p.threshold + softRange) L
    let mask := if p.depthBias ≠ 1 ∧ 0 < mask0 then ops.pw mask0 p.depthBias else mask0
    let biasR :=
      if 0 < p.colorBias then 1 + p.colorBias * 0.5
      else if p.colorBias < 0 then 1 - |p.colorBias| * 0.2
      else 1
    let biasB :=
      if 0 < p.colorBias then 1 - p.colorBias * 0.2
      else if p.colorBias < 0 then 1 + |p.colorBias| * 0.5
      else 1
    let mistL := L * mask
    ⟨mistL * biasR, mistL, mistL * biasB⟩

/-- DreamyMist::applyMist: strictly additive veil. -/
def applyMist (p : Params) (c mist : RGB) : RGB :=
  if ¬p.enable then c
  else
    ⟨c.r + mist.r * p.strength, c.g + mist.g * p.strength, c.b + mist.b * p.strength⟩

end DreamyMist

namespace DreamyBlur

/-- DreamyBlur::Params. -/
structure Params where
  enable : Bool
  blurRadius : ℚ
  strength : ℚ
  shadowAmt : ℚ
  highlightAmt : ℚ
  tonalSoftness : ℚ
  saturation : ℚ

/-- DreamyBlur::softLight (scalar soft-light blend). -/
def softLight (ops : MathOps) (base blend : ℚ) : ℚ :=
  if blend < 0.5 then base - (1 - 2 * blend) * base * (1 - base)
  else
    let s := if 0 < base then ops.sqrt base else 0
    base + (2 * blend - 1) * (s - base)

/-- DreamyBlur::applyDreamyBlur: soft-light luminance blend, ratio-reapplied,
saturation-controlled and gated by the shadow/highlight tonal mask. -/
def applyDreamyBlur (ops : MathOps) (p : Params) (c blurred : RGB)
    (skinMask : ℚ) : RGB :=
  if ¬p.enable then c
  else
    let lumaBase := 0.2126 * c.r + 0.7152 * c.g + 0.0722 * c.b
    let lumaBlend := 0.2126 * blurred.r + 0.7152 * blurred.g + 0.0722 * blurred.b
    let lumaResult := softLight ops lumaBase lumaBlend
    let ratioVal := if 0.0001 < lumaBase then lumaResult / lumaBase else 1
    let sl0 : RGB := ⟨c.r * ratioVal, c.g * ratioVal, c.b * ratioVal⟩
    let sl : RGB :=
      if 0.001 < |p.saturation - 1| then
        ⟨lumaResult + (sl0.r - lumaResult) * p.saturation,
         lumaResult + (sl0.g - lumaResult) * p.saturation,
         lumaResult + (sl0.b - lumaResult) * p.saturation⟩
      else sl0
    let width := 0.2 + 0.8 * p.tonalSoftness
    let shadowWeight := 1 - Utils.smoothstep 0 width lumaBase
    let highlightWeight := Utils.smoothstep (1 - width) 1 lumaBase
    let maskVal := shadowWeight * p.shadowAmt + highlightWeight * p.highlightAmt
    let finalMix0 := maskVal * p.strength
    let finalMix := if 0 < skinMask then finalMix0 * (1 - skinMask) else finalMix0
    ⟨Utils.mix c.r sl.r finalMix, Utils.mix c.g sl.g finalMix,
     Utils.mix c.b sl.b finalMix⟩

end DreamyBlur

namespace CinematicGlow

/-- CinematicGlow::Params. -/
structure Params where
  enable : Bool
  amount : ℚ
  threshold : ℚ
  knee : ℚ
  radius : ℚ
  colorFidelity : ℚ
  warmth : ℚ

/-- CinematicGlow::computeGlowSource: thresholded highlights, blended between
pure luminance and full colour by fidelity, warmth-biased. -/
def computeGlowSource (p : Params) (c : RGB) : RGB :=
  if ¬p.enable then ⟨0, 0, 0⟩
  else
    let L := Utils.getLuminance c.r c.g c.b
    let mask := Utils.smoothstep p.threshold (p.threshold + p.knee + 0.001) L
    let baseR0 := Utils.mix (L * mask) (c.r * mask) p.colorFidelity
    let baseG0 := Utils.mix (L * mask) (c.g * mask) p.colorFidelity
    let baseB0 := Utils.mix (L * mask) (c.b * mask) p.colorFidelity
    if 0 < p.warmth then
      ⟨baseR0 * (1 + p.warmth * 0.5), baseG0, baseB0 * (1 - p.warmth * 0.2)⟩
    else if p.warmth < 0 then
      ⟨baseR0 * (1 - |p.warmth| * 0.2), baseG0, baseB0 * (1 + |p.warmth| * 0.5)⟩
    else ⟨baseR0, baseG0, baseB0⟩

/-- CinematicGlow::applyGlow: additive. -/
def applyGlow (p : Params) (c glowc : RGB) : RGB :=
  if ¬p.enable then c
  else ⟨c.r + glowc.r * p.amount, c.g + glowc.g * p.amount, c.b + glowc.b * p.amount⟩

end CinematicGlow

namespace AnamorphicStreak

/-- AnamorphicStreak::Params. -/
structure Params where
  enable : Bool
  amount : ℚ
  threshold : ℚ
  length : ℚ
  tint : ℚ

/-- AnamorphicStreak::boxBlurH1D: a verbatim copy, in the source, of
Utils::boxBlurH (same seeding, sliding window and alpha passthrough). -/
def boxBlurH1D (src : ℕ → ℕ → Pix) (w h r : ℕ) : ℕ → ℕ → Pix :=
  if r < 1 then src
  else fun y x =>
    ⟨Utils.slideSum (fun i => (src y i).r) w r x * (1 / (2 * (r : ℚ) + 1)),
     Utils.slideSum (fun i => (src y i).g) w r x * (1 / (2 * (r : ℚ) + 1)),
     Utils.slideSum (fun i => (src y i).b) w r x * (1 / (2 * (r : ℚ) + 1)),
     (src y x).a⟩

theorem boxBlurH1D_eq_boxBlurH : @boxBlurH1D = @Utils.boxBlurH := rfl

/-- AnamorphicStreak::computeStreakSource: smoothstep-thresholded highlights
(knee fixed at 0.3). -/
def computeStreakSource (p : Params) (c : RGB) : RGB :=
  let L := Utils.getLuminance c.r c.g c.b
  let mask := Utils.smoothstep p.threshold (p.threshold + 0.3) L
  if mask ≤ 0.001 then ⟨0, 0, 0⟩
  else ⟨c.r * mask, c.g * mask, c.b * mask⟩

/-- AnamorphicStreak::applyStreak: warm/cool-tinted additive blend. -/
def applyStreak (p : Params) (c s : RGB) : RGB :=
  if p.amount ≤ 0 then c
  else
    let s2 : RGB :=
      if 0 < p.tint then
        ⟨s.r * (1 + p.tint * 0.3), s.g * (1 + p.tint * 0.1), s.b * (1 - p.tint * 0.2)⟩
      else if p.tint < 0 then
        ⟨s.r * (1 - -p.tint * 0.2), s.g, s.b * (1 + -p.tint * 0.3)⟩
      else s
    ⟨c.r + s2.r * p.amount, c.g + s2.g * p.amount, c.b + s2.b * p.amount⟩

end AnamorphicStreak

namespace Sharpening

/-- Sharpening::Params (type: 0 soft, 1 micro-contrast, 2 edge-aware,
3 deconvolution). -/
structure Params where
  enable : Bool
  type : ℤ
  amount : ℚ
  radius : ℚ
  detailAmount : ℚ
  edgeProtection : ℚ
  noiseSuppression : ℚ
  shadowProtection : ℚ
  highlightProtection : ℚ

/-- Sharpening::applySharpen: luminance detail = L - blurred L, shaped by the
selected response curve, noise suppression, edge protection and tonal
protection, reapplied as a per-channel luminance delta. -/
def applySharpen (p : Params) (c bl : RGB) : RGB :=
  if ¬p.enable ∨ p.amount ≤ 0 then c
  else
    let L := Utils.getLuminance c.r c.g c.b
    let bL := Utils.getLuminance bl.r bl.g bl.b
    let detail := L - bL
    let adj1 :=
      if p.type = 1 then detail * 1.2
      else if p.type = 3 then
        let a := if 0.1 < detail then 0.1 + (detail - 0.1) * 0.1 else detail
        if a < -0.1 then -0.1 + (a + 0.1) * 0.1 else a
      else detail
    let adj2 :=
      if 0 < p.noiseSuppression then
        let thresh := p.noiseSuppression * 0.05
        if |adj1| < thresh then adj1 * (|adj1| / thresh) else adj1
      else adj1
    let adj3 :=
      if p.type = 2 ∨ 0 < p.edgeProtection then
        let protStrength := if p.type = 2 then max 0.5 p.edgeProtection else p.edgeProtection
        if 0.05 < |adj2| then adj2 * (1 / (1 + (|adj2| - 0.05) * protStrength * 20))
        else adj2
      else adj2
    let weight1 :=
      if 0 < p.shadowProtection then
        1 * (1 - (1 - min (L * 4) 1) * p.shadowProtection)
      else 1
    let weight2 :=
      if 0 < p.highlightProtection then
        weight1 * (1 - max 0 (L - 0.6) * 2.5 * p.highlightProtection)
      else weight1
    let strength := p.amount * weight2 * (0.5 + p.detailAmount)
    let diff := L + adj3 * strength - L
    ⟨c.r + diff, c.g + diff, c.b + diff⟩

end Sharpening

namespace Halation

/-- Halation::Params (the hue-shift variant, which is the one the
orchestrator's call site selects: computeHalationSource takes a skinMask
argument and the params carry hueShift). -/
structure Params where
  enable : Bool
  amount : ℚ
  threshold : ℚ
  knee : ℚ
  warmth : ℚ
  radius : ℚ
  saturation : ℚ
  hueShift : ℚ

/-- Halation::computeHalationSource (hue-shift variant): red-channel energy
under the highlight mask, pushed through the rotation of the base scatter
vector (1, mixG, 0) about the achromatic axis. -/
def computeHalationSource (ops : MathOps) (p : Params) (c : RGB)
    (skinMask : ℚ) : RGB :=
  if ¬p.enable ∨ p.amount ≤ 0 then ⟨0, 0, 0⟩
  else
    let L := Utils.getLuminance c.r c.g c.b
    let mask := Utils.smoothstep p.threshold (p.threshold + p.knee) L * (1 - skinMask)
    if mask ≤ 0.001 then ⟨0, 0, 0⟩
    else
      let hueRad := p.hueShift * 0.0174532925
      let cosH := ops.cos hueRad
      let sinH := ops.sin hueRad
      let mixG := max 0 (0.1 + p.warmth * 0.4)
      let k3 := (1 - cosH) / 3
      let s3 := sinH * 0.577350269
      ⟨c.r * mask * (1 * (cosH + k3) + mixG * (-s3 + k3)),
       c.r * mask * (1 * (s3 + k3) + mixG * (cosH + k3)),
       c.r * mask * (1 * (-s3 + k3) + mixG * (s3 + k3))⟩

/-- Halation::applyHalation: saturation-controlled desaturation of the blurred
layer, then additive, unclamped. -/
def applyHalation (p : Params) (c hblur : RGB) : RGB :=
  if ¬p.enable ∨ p.amount ≤ 0 then c
  else
    let sat := max 0 (min 1 p.saturation)
    let hb : RGB :=
      if sat < 1 then
        let hL := Utils.getLuminance hblur.r hblur.g hblur.b
        ⟨Utils.mix hL hblur.r sat, Utils.mix hL hblur.g sat, Utils.mix hL hblur.b sat⟩
      else hblur
    ⟨c.r + hb.r * p.amount, c.g + hb.g * p.amount, c.b + hb.b * p.amount⟩

end Halation

namespace ChromaticAberration

/-- ChromaticAberration::Params. -/
structure Params where
  enable : Bool
  amount : ℚ
  centerX : ℚ
  centerY : ℚ

/-- ChromaticAberration::sampleChannel: nearest-sample fetch at UV, clamped to
the buffer extent.  The int channel offset of the C code is modelled by the
channel accessor. -/
def sampleChannel (src : ℕ → ℕ → Pix) (ch : Pix → ℚ)
    (su sv imgW imgH rodX1 rodY1 : ℚ) (bufX1 bufY1 : ℤ) (w h : ℕ) : ℚ :=
  let px := su * imgW + rodX1 - (bufX1 : ℚ)
  let py := sv * imgH + rodY1 - (bufY1 : ℚ)
  let ix : ℤ := max 0 (min (truncQ px) ((w : ℤ) - 1))
  let iy : ℤ := max 0 (min (truncQ py) ((h : ℤ) - 1))
  ch (src iy.toNat ix.toNat)

/-- ChromaticAberration::process: radial shift of R outward and B inward,
green and alpha passed through. -/
def process (ops : MathOps) (p : Params) (src : ℕ → ℕ → Pix) (w h : ℕ)
    (rodX1 rodY1 imgW imgH : ℚ) (bufX1 bufY1 : ℤ) : ℕ → ℕ → Pix :=
  if ¬p.enable ∨ p.amount ≤ 0 then src
  else
    let cx := 0.5 + p.centerX * 0.5
    let cy := 0.5 + p.centerY * 0.5
    let strength := p.amount * 0.02
    let invW := 1 / max 1 imgW
    let invH := 1 / max 1 imgH
    fun y x =>
      let u := (((bufX1 + (x : ℤ) : ℤ) : ℚ) - rodX1) * invW
      let v := (((bufY1 + (y : ℤ) : ℤ) : ℚ) - rodY1) * invH
      let du := u - cx
      let dv := v - cy
      let dist := ops.sqrt (du * du + dv * dv)
      let shiftR := dist * strength
      let shiftB := -dist * strength
      ⟨sampleChannel src Pix.r (u + du * shiftR) (v + dv * shiftR) imgW imgH
          rodX1 rodY1 bufX1 bufY1 w h,
       (src y x).g,
       sampleChannel src Pix.b (u + du * shiftB) (v + dv * shiftB) imgW imgH
          rodX1 rodY1 bufX1 bufY1 w h,
       (src y x).a⟩

end ChromaticAberration

namespace Vignette

/-- Vignette::Params (type: 0 Dark, 1 Light, 2 Defocus). -/
structure Params where
  enable : Bool
  type : ℤ
  amount : ℚ
  invert : Bool
  size : ℚ
  roundness : ℚ
  edgeSoftness : ℚ
  defocusAmount : ℚ
  defocusSoftness : ℚ
  centerX : ℚ
  centerY : ℚ
  tintR : ℚ
  tintG : ℚ
  tintB : ℚ

/-- Vignette::computeMask: aspect-corrected circle/square blended radial mask
softened by smoothstep. -/
def computeMask (ops : MathOps) (p : Params) (u v aspect : ℚ) : ℚ :=
  let cx := 0.5 + p.centerX * 0.5
  let cy := 0.5 + p.centerY * 0.5
  let dx0 := u - cx
  let dy0 := v - cy
  let dx := if 1 < aspect then dx0 * aspect else dx0
  let dy := if 1 < aspect then dy0 else dy0 / aspect
  let dCircle := ops.sqrt (dx * dx + dy * dy)
  let dSquare := max |dx| |dy|
  let dist := Utils.mix dSquare dCircle p.roundness
  let softness := max 0.01 p.edgeSoftness
  let start := p.size * 0.7
  Utils.smoothstep start (start + softness) dist

/-- Vignette::processPixel: Dark/Light scale luminance by the mask (ratio
reapplied) and optionally tint; the eDefocus branch is an explicit no-op
("Defocus handled by caller (PipelineProcessor) using computeMask"). -/
def processPixel (p : Params) (c : RGB) (V skinMask : ℚ) : RGB :=
  if ¬p.enable then c
  else
    let mask := (if p.invert then 1 - V else V) * (1 - skinMask)
    if mask ≤ 0 then c
    else if p.type = 0 ∨ p.type = 1 then
      let effAmount := if p.type = 0 then -p.amount else p.amount
      let L := Utils.getLuminance c.r c.g c.b
      let Lout := max 0 (L * (1 + effAmount * mask))
      let scale := if 1e-6 < L then Lout / L else 1
      let c1 : RGB := ⟨c.r * scale, c.g * scale, c.b * scale⟩
      if 0 < p.tintR ∨ 0 < p.tintG ∨ 0 < p.tintB then
        let tintStr := mask * p.amount * 0.5
        ⟨c1.r + p.tintR * tintStr, c1.g + p.tintG * tintStr, c1.b + p.tintB * tintStr⟩
      else c1
    else c

end Vignette

/-- An integer rectangle (OfxRectI): half-open [x1, x2) × [y1, y2). -/
structure RectI where
  x1 : ℤ
  y1 : ℤ
  x2 : ℤ
  y2 : ℤ
deriving DecidableEq, Repr

/-- A real-valued rectangle (OfxRectD). -/
structure RectQ where
  x1 : ℚ
  y1 : ℚ
  x2 : ℚ
  y2 : ℚ
deriving DecidableEq, Repr

namespace PipelineProcessor

/-- The PipelineProcessor instance data: one Params record per module plus the
render-scale, frame time and source region of definition, exactly the fields
populated by CinematicPlugin::render. -/
structure Proc where
  cit : ColorIngestTweaks.Params
  pcr : FilmResponse.Params
  tonal : TonalEngine.Params
  energy : ColorEnergyEngine.Params
  hlp : HighlightProtection.Params
  split : SplitToning.Params
  grain : FilmGrain.Params
  dither : Dither.Params
  mist : DreamyMist.Params
  blur : DreamyBlur.Params
  glow : CinematicGlow.Params
  streak : AnamorphicStreak.Params
  sharp : Sharpening.Params
  halo : Halation.Params
  ca : ChromaticAberration.Params
  vig : Vignette.Params
  renderScaleX : ℚ
  time : ℚ
  rod : RectQ

/-- mistR of the apron section: fixed 6 px radius, render-scale adjusted. -/
def mistR (P : Proc) : ℚ := if P.mist.enable then 6 * P.renderScaleX else 0

/-- blurR of the apron section, floored at 0. -/
def blurR (P : Proc) : ℚ :=
  let b := if P.blur.enable then P.blur.blurRadius * P.renderScaleX else 0
  if b < 0 then 0 else b

/-- glowR of the apron section. -/
def glowR (P : Proc) : ℚ := if P.glow.enable then P.glow.radius * P.renderScaleX else 0

/-- haloR of the apron section, clamped to at most 50. -/
def haloR (P : Proc) : ℚ :=
  let h0 := if P.halo.enable then P.halo.radius * P.renderScaleX else 0
  if 50 < h0 then 50 else h0

/-- sharpR of the apron section: fixed 2 px when sharpening is enabled. -/
def sharpR (P : Proc) : ℚ := if P.sharp.enable then 2 else 0

/-- defR of the apron section: the Vignette-Defocus radius. -/
def defR (P : Proc) : ℚ :=
  if P.vig.enable ∧ P.vig.type = 2 then P.vig.defocusSoftness * 20 * P.renderScaleX
  else 0

/-- totalR of the apron section: Mist enters by max against the running total
(which is still 0 at that point), every later enabled radius is added. -/
def totalR (P : Proc) : ℚ :=
  let t0 : ℚ := 0
  let t1 := if P.mist.enable then max t0 (mistR P) else t0
  let t2 := if P.blur.enable then t1 + blurR P else t1
  let t3 := if P.halo.enable then t2 + haloR P else t2
  let t4 := if P.glow.enable then t3 + glowR P else t3
  let t5 := if P.sharp.enable then t4 + sharpR P else t4
  if 0 < defR P then t5 + defR P else t5

/-- The apron: ceil(totalR) + 2. -/
def apron (P : Proc) : ℤ := ⌈totalR P⌉ + 2

/-- The source fetch of the orchestrator: getPixelAddress returns null outside
the source bounds, in which case the coordinate is clamped into the bounds and
refetched; an empty bounds rectangle yields black. -/
def getSrcPixel (srcBounds : RectI) (src : ℤ → ℤ → RGB) (x y : ℤ) : RGB :=
  if srcBounds.x1 ≤ x ∧ x < srcBounds.x2 ∧ srcBounds.y1 ≤ y ∧ y < srcBounds.y2 then
    src x y
  else if srcBounds.x1 < srcBounds.x2 ∧ srcBounds.y1 < srcBounds.y2 then
    src (min (max x srcBounds.x1) (srcBounds.x2 - 1))
      (min (max y srcBounds.y1) (srcBounds.y2 - 1))
  else ⟨0, 0, 0⟩

/-- Stage 0 of multiThreadProcessImages: fetch and run the per-pixel chain
CIT → PCR → Tonal → Energy → HLP → Split → Grain → Dither across the full
apron buffer; alpha is forced to 1. -/
def stage0 (ops : MathOps) (P : Proc) (srcBounds : RectI) (src : ℤ → ℤ → RGB)
    (bufX1 bufY1 frameSeed imgW imgH : ℤ) : ℕ → ℕ → Pix :=
  fun y x =>
    let gx := bufX1 + (x : ℤ)
    let gy := bufY1 + (y : ℤ)
    let c0 := getSrcPixel srcBounds src gx gy
    let c1 := if P.cit.enable then ColorIngestTweaks.process ops P.cit c0 else c0
    let c2 := if P.pcr.enable then FilmResponse.processPixel P.pcr c1 else c1
    let c3 := TonalEngine.processPixel ops P.tonal c2
    let c4 := if P.energy.enable then ColorEnergyEngine.process ops P.energy c3 else c3
    let c5 := HighlightProtection.processPixel P.hlp c4
    let c6 := if P.split.enable then SplitToning.processPixel P.split c5 else c5
    let c7 := if P.grain.enable then
        FilmGrain.applyGrain P.grain gx gy frameSeed imgW imgH c6
      else c6
    let c8 := if P.dither.enable then Dither.process P.dither gx gy c7 else c7
    ⟨c8.r, c8.g, c8.b, 1⟩

/-- The Mist stage: extract the mist source into the scratch buffer (alpha 0),
Gaussian-blur it at max(1, ceil(mistR)), apply additively. -/
def mistStage (ops : MathOps) (P : Proc) (buf : ℕ → ℕ → Pix) (w h : ℕ) :
    ℕ → ℕ → Pix :=
  if P.mist.enable then
    let r := (max 1 ⌈mistR P⌉).toNat
    let srcB : ℕ → ℕ → Pix := fun y x =>
      let m := DreamyMist.computeMistSource ops P.mist (buf y x).rgb
      ⟨m.r, m.g, m.b, 0⟩
    let blurred := Utils.gaussianBlur srcB w h r
    fun y x =>
      let d := DreamyMist.applyMist P.mist (buf y x).rgb (blurred y x).rgb
      ⟨d.r, d.g, d.b, (buf y x).a⟩
  else buf

/-- The Dreamy Blur stage: blur a full copy, then soft-light blend. -/
def dreamyBlurStage (ops : MathOps) (P : Proc) (buf : ℕ → ℕ → Pix) (w h : ℕ) :
    ℕ → ℕ → Pix :=
  if P.blur.enable then
    let r := (max 1 ⌈blurR P⌉).toNat
    let blurred := Utils.gaussianBlur buf w h r
    fun y x =>
      let d := DreamyBlur.applyDreamyBlur ops P.blur (buf y x).rgb (blurred y x).rgb 0
      ⟨d.r, d.g, d.b, (buf y x).a⟩
  else buf

/-- The Cinematic Glow stage. -/
def glowStage (ops : MathOps) (P : Proc) (buf : ℕ → ℕ → Pix) (w h : ℕ) :
    ℕ → ℕ → Pix :=
  if P.glow.enable then
    let r := (max 1 ⌈glowR P⌉).toNat
    let srcB : ℕ → ℕ → Pix := fun y x =>
      let m := CinematicGlow.computeGlowSource P.glow (buf y x).rgb
      ⟨m.r, m.g, m.b, 0⟩
    let blurred := Utils.gaussianBlur srcB w h r
    fun y x =>
      let d := CinematicGlow.applyGlow P.glow (buf y x).rgb (blurred y x).rgb
      ⟨d.r, d.g, d.b, (buf y x).a⟩
  else buf

/-- The Anamorphic Streak stage: horizontal-only blur, three 1-D box passes
ping-ponged across the two scratch buffers, then tinted additive apply. -/
def streakStage (P : Proc) (buf : ℕ → ℕ → Pix) (w h : ℕ) : ℕ → ℕ → Pix :=
  if P.streak.enable then
    let sLen := (max 1 (truncQ (P.streak.length * 80 * P.renderScaleX))).toNat
    let srcB : ℕ → ℕ → Pix := fun y x =>
      let m := AnamorphicStreak.computeStreakSource P.streak (buf y x).rgb
      ⟨m.r, m.g, m.b, 0⟩
    let p1 := AnamorphicStreak.boxBlurH1D srcB w h sLen
    let p2 := AnamorphicStreak.boxBlurH1D p1 w h sLen
    let p3 := AnamorphicStreak.boxBlurH1D p2 w h sLen
    fun y x =>
      let d := AnamorphicStreak.applyStreak P.streak (buf y x).rgb (p3 y x).rgb
      ⟨d.r, d.g, d.b, (buf y x).a⟩
  else buf

/-- The Sharpening stage. -/
def sharpStage (P : Proc) (buf : ℕ → ℕ → Pix) (w h : ℕ) : ℕ → ℕ → Pix :=
  if P.sharp.enable then
    let r := (max 1 ⌈sharpR P⌉).toNat
    let blurred := Utils.gaussianBlur buf w h r
    fun y x =>
      let d := Sharpening.applySharpen P.sharp (buf y x).rgb (blurred y x).rgb
      ⟨d.r, d.g, d.b, (buf y x).a⟩
  else buf

/-- The Halation stage (skin mask argument fixed at 0 by the call site). -/
def haloStage (ops : MathOps) (P : Proc) (buf : ℕ → ℕ → Pix) (w h : ℕ) :
    ℕ → ℕ → Pix :=
  if P.halo.enable then
    let r := (max 1 ⌈haloR P⌉).toNat
    let srcB : ℕ → ℕ → Pix := fun y x =>
      let m := Halation.computeHalationSource ops P.halo (buf y x).rgb 0
      ⟨m.r, m.g, m.b, 0⟩
    let blurred := Utils.gaussianBlur srcB w h r
    fun y x =>
      let d := Halation.applyHalation P.halo (buf y x).rgb (blurred y x).rgb
      ⟨d.r, d.g, d.b, (buf y x).a⟩
  else buf

/-- The Chromatic Aberration stage (bufB is a copy of bufA, processed back
into bufA). -/
def caStage (ops : MathOps) (P : Proc) (imgW imgH bufX1 bufY1 : ℤ)
    (buf : ℕ → ℕ → Pix) (w h : ℕ) : ℕ → ℕ → Pix :=
  if P.ca.enable then
    ChromaticAberration.process ops P.ca buf w h P.rod.x1 P.rod.y1
      (imgW : ℚ) (imgH : ℚ) bufX1 bufY1
  else buf

/-- The Vignette stage: per-pixel mask and apply (skin mask 0). -/
def vigStage (ops : MathOps) (P : Proc) (imgW imgH bufX1 bufY1 : ℤ)
    (buf : ℕ → ℕ → Pix) (w h : ℕ) : ℕ → ℕ → Pix :=
  if P.vig.enable then
    let aspect := (imgW : ℚ) / max 1 (imgH : ℚ)
    let invW := 1 / (imgW : ℚ)
    let invH := 1 / (imgH : ℚ)
    fun y x =>
      let v := (((bufY1 + (y : ℤ) : ℤ) : ℚ) - P.rod.y1) * invH
      let u := (((bufX1 + (x : ℤ) : ℤ) : ℚ) - P.rod.x1) * invW
      let V := Vignette.computeMask ops P.vig u v aspect
      let d := Vignette.processPixel P.vig (buf y x).rgb V 0
      ⟨d.r, d.g, d.b, (buf y x).a⟩
  else buf

/-- PipelineProcessor::multiThreadProcessImages, as the map from global output
coordinates inside the requested window to the pixel written there: apron
computation, apron-extended fetch + per-pixel stage, the spatial stages in
their fixed order, and the final copy of the window sub-rectangle. -/
def process (ops : MathOps) (P : Proc) (srcBounds : RectI) (src : ℤ → ℤ → RGB)
    (win : RectI) : ℤ → ℤ → Pix :=
  let ap := apron P
  let bX1 := win.x1 - ap
  let bY1 := win.y1 - ap
  let bufAW := ((win.x2 + ap) - bX1).toNat
  let bufAH := ((win.y2 + ap) - bY1).toNat
  let frameSeed : ℤ := if P.grain.enable then ⌊P.time * 24⌋ else 0
  let imgW : ℤ := truncQ (P.rod.x2 - P.rod.x1)
  let imgH : ℤ := truncQ (P.rod.y2 - P.rod.y1)
  let b0 := stage0 ops P srcBounds src bX1 bY1 frameSeed imgW imgH
  let b1 := mistStage ops P b0 bufAW bufAH
  let b2 := dreamyBlurStage ops P b1 bufAW bufAH
  let b3 := glowStage ops P b2 bufAW bufAH
  let b4 := streakStage P b3 bufAW bufAH
  let b5 := sharpStage P b4 bufAW bufAH
  let b6 := haloStage ops P b5 bufAW bufAH
  let b7 := caStage ops P imgW imgH bX1 bY1 b6 bufAW bufAH
  let b8 := vigStage ops P imgW imgH bX1 bY1 b7 bufAW bufAH
  fun X Y => b8 (Y - bY1).toNat (X - bX1).toNat

end PipelineProcessor

namespace CinematicPlugin

/-- The raw parameter values read by CinematicPlugin::isIdentity at a frame
time. -/
structure ParamSnapshot where
  enableCIT : Bool
  citExposure : ℚ
  citChromaCeiling : ℚ
  citWhiteBias : ℚ
  citTemperature : ℚ
  citTint : ℚ
  citGlobalSat : ℚ
  enablePCR : Bool
  pcrAmount : ℚ
  enableTonal : Bool
  tonalStrength : ℚ
  enableEnergy : Bool
  enableHLP : Bool
  hlpThreshold : ℚ
  enableSplit : Bool
  splitStrength : ℚ
  enableGrain : Bool
  grainAmount : ℚ
  enableDither : Bool
  ditherAmount : ℚ
  enableMist : Bool
  enableBlur : Bool
  enableGlow : Bool
  enableStreak : Bool
  streakAmount : ℚ
  enableSharp : Bool
  enableHalo : Bool
  enableCA : Bool
  caAmount : ℚ
  enableVignette : Bool

/-- CinematicPlugin::isIdentity: true iff no module is active, with the
per-module activity tests of the source (lines 705-760). -/
def isIdentity (s : ParamSnapshot) : Bool :=
  let citNeutral := decide (s.citExposure = 0) && decide (1 ≤ s.citChromaCeiling) &&
    decide (s.citWhiteBias = 0) && decide (s.citTemperature = 0) &&
    decide (s.citTint = 0) && decide (s.citGlobalSat = 1)
  let citActive := s.enableCIT && !citNeutral
  let pcrActive := s.enablePCR && decide (0 < s.pcrAmount)
  let tonalActive := s.enableTonal && decide (0 < s.tonalStrength)
  let energyActive := s.enableEnergy
  let hlpActive := s.enableHLP && decide (s.hlpThreshold < 100)
  let splitActive := s.enableSplit && decide (0 < s.splitStrength)
  let grainActive := s.enableGrain && decide (0 < s.grainAmount)
  let ditherActive := s.enableDither && decide (0 < s.ditherAmount)
  let mistActive := s.enableMist
  let blurActive := s.enableBlur
  let glowActive := s.enableGlow
  let streakActive := s.enableStreak && decide (0 < s.streakAmount)
  let sharpActive := s.enableSharp
  let haloActive := s.enableHalo
  let caActive := s.enableCA && decide (0 < s.caAmount)
  let vigActive := s.enableVignette
  !citActive && !pcrActive && !tonalActive && !energyActive && !hlpActive &&
    !splitActive && !grainActive && !ditherActive && !mistActive &&
    !blurActive && !glowActive && !streakActive && !sharpActive &&
    !haloActive && !caActive && !vigActive

end CinematicPlugin

/-- A processor state with every module disabled and neutral values (the
disabled-module values CinematicPlugin::render produces: tonal strength forced
to 0, HLP threshold forced to 100). -/
def procAllOff : PipelineProcessor.Proc where
  cit := ⟨0, 1, 0, 0, 0, 1, false⟩
  pcr := ⟨false, 0, 0, 0, 0, 0, 0, false⟩
  tonal := ⟨1, 0.18, 0, 0, 1, 0⟩
  energy := ⟨1, 0, 0, 0, 1, false⟩
  hlp := ⟨100, 0.5, false⟩
  split := ⟨false, 0, 0, 0, 0, 0, 0, 0, 0, 0, 0, 0, 0⟩
  grain := ⟨false, 0, 0.5, 0.5, 0.5, 0.5, 0, false, 0.5⟩
  dither := ⟨false, 0.5⟩
  mist := ⟨false, 0, 0.5, 0.5, 0, 0, 0⟩
  blur := ⟨false, 4, 0.5, 0.3, 0.8, 0.5, 1⟩
  glow := ⟨false, 0, 0.8, 0.5, 10, 0.5, 0⟩
  streak := ⟨false, 0, 0.8, 0.5, 0⟩
  sharp := ⟨false, 0, 0, 1, 0.5, 0, 0, 0, 0⟩
  halo := ⟨false, 0, 0.8, 0.5, 0, 10, 1, 0⟩
  ca := ⟨false, 0, 0, 0⟩
  vig := ⟨false, 0, 0, false, 0.5, 0.5, 0.5, 0, 0, 0, 0, 0, 0, 0⟩
  renderScaleX := 1
  time := 0
  rod := ⟨0, 0, 0, 0⟩

/-- Mist (radius 6 at scale 1) and Dreamy Blur (radius 4) enabled. -/
def procC2a : PipelineProcessor.Proc :=
  { procAllOff with
    mist := { procAllOff.mist with enable := true }
    blur := { procAllOff.blur with enable := true, blurRadius := 4 } }

/-- Only Dreamy Blur (radius 4) enabled. -/
def procC2b : PipelineProcessor.Proc :=
  { procAllOff with
    blur := { procAllOff.blur with enable := true, blurRadius := 4 } }

/-- Counterexample for C2 as stated: with Mist (radius 6) and Dreamy Blur
(radius 4) enabled at render scale 1, the code's apron is
ceil(6 + 4) + 2 = 12, not the claimed ceil(max(6, 4)) + 2 = 8; with Mist
disabled the apron is 6, so enabling Mist grows the apron by its full radius
(by 6, not by the max-rule's 2) whatever fixed margin is assumed. -/
theorem claim_C2_counterexample :
    PipelineProcessor.apron procC2a = 12 ∧
    PipelineProcessor.apron procC2b = 6 ∧
    PipelineProcessor.apron procC2a ≠
      ⌈max (PipelineProcessor.mistR procC2a)
          (PipelineProcessor.blurR procC2a + PipelineProcessor.haloR procC2a +
            PipelineProcessor.glowR procC2a + PipelineProcessor.sharpR procC2a +
            PipelineProcessor.defR procC2a)⌉ + 2 := by
  have hta : PipelineProcessor.totalR procC2a = 10 := by
    norm_num [PipelineProcessor.totalR, PipelineProcessor.mistR,
      PipelineProcessor.blurR, PipelineProcessor.haloR, PipelineProcessor.glowR,
      PipelineProcessor.sharpR, PipelineProcessor.defR, procC2a, procAllOff]
  have htb : PipelineProcessor.totalR procC2b = 4 := by
    norm_num [PipelineProcessor.totalR, PipelineProcessor.mistR,
      PipelineProcessor.blurR, PipelineProcessor.haloR, PipelineProcessor.glowR,
      PipelineProcessor.sharpR, PipelineProcessor.defR, procC2b, procAllOff]
  have ha : PipelineProcessor.apron procC2a = 12 := by
    rw [PipelineProcessor.apron, hta]
    have : (⌈(10 : ℚ)⌉ : ℤ) = 10 := by rw [Int.ceil_eq_iff] <;> norm_num
    omega
  have hb : PipelineProcessor.apron procC2b = 6 := by
    rw [PipelineProcessor.apron, htb]
    have : (⌈(4 : ℚ)⌉ : ℤ) = 4 := by rw [Int.ceil_eq_iff] <;> norm_num
    omega
  refine ⟨ha, hb, ?_⟩
  have hmax : max (PipelineProcessor.mistR procC2a)
      (PipelineProcessor.blurR procC2a + PipelineProcessor.haloR procC2a +
        PipelineProcessor.glowR procC2a + PipelineProcessor.sharpR procC2a +
        PipelineProcessor.defR procC2a) = 6 := by
    norm_num [PipelineProcessor.mistR, PipelineProcessor.blurR,
      PipelineProcessor.haloR, PipelineProcessor.glowR, PipelineProcessor.sharpR,
      PipelineProcessor.defR, procC2a, procAllOff]
  rw [ha, hmax]
  have : (⌈(6 : ℚ)⌉ : ℤ) = 6 := by rw [Int.ceil_eq_iff] <;> norm_num
  omega

/-- C2 (amended).  The apron the orchestrator computes is
ceil(mistR + blurR + haloR + glowR + sharpR + defocus contribution) + 2 for
every configuration (at nonnegative render scale): Mist's radius is maxed
against the running total while that total is still zero, so it effectively
enters the combination by sum exactly like every other enabled radius, and
enabling Mist grows the apron by the full mist radius. -/
theorem claim_C2 (P : PipelineProcessor.Proc) (hscale : 0 ≤ P.renderScaleX) :
    PipelineProcessor.apron P =
      ⌈PipelineProcessor.mistR P + PipelineProcessor.blurR P +
        PipelineProcessor.haloR P + PipelineProcessor.glowR P +
        PipelineProcessor.sharpR P +
        (if 0 < PipelineProcessor.defR P then PipelineProcessor.defR P else 0)⌉ +
        2 := by
  have hsum : PipelineProcessor.totalR P =
      PipelineProcessor.mistR P + PipelineProcessor.blurR P +
        PipelineProcessor.haloR P + PipelineProcessor.glowR P +
        PipelineProcessor.sharpR P +
        (if 0 < PipelineProcessor.defR P then PipelineProcessor.defR P else 0) := by
    have hA : (if P.mist.enable then max (0 : ℚ) (PipelineProcessor.mistR P) else 0) =
        PipelineProcessor.mistR P := by
      cases hm : P.mist.enable
      · simp [PipelineProcessor.mistR, hm]
      · have : (0 : ℚ) ≤ PipelineProcessor.mistR P := by
          simp only [PipelineProcessor.mistR, hm, if_pos]
          positivity
        simp [max_eq_right this]
    have hB : ∀ t : ℚ, (if P.blur.enable then t + PipelineProcessor.blurR P else t) =
        t + PipelineProcessor.blurR P := by
      intro t
      cases hb : P.blur.enable
      · simp [PipelineProcessor.blurR, hb]
      · simp
    have hC : ∀ t : ℚ, (if P.halo.enable then t + PipelineProcessor.haloR P else t) =
        t + PipelineProcessor.haloR P := by
      intro t
      cases hhl : P.halo.enable
      · simp [PipelineProcessor.haloR, hhl]
      · simp
    have hD : ∀ t : ℚ, (if P.glow.enable then t + PipelineProcessor.glowR P else t) =
        t + PipelineProcessor.glowR P := by
      intro t
      cases hg : P.glow.enable
      · simp [PipelineProcessor.glowR, hg]
      · simp
    have hE : ∀ t : ℚ, (if P.sharp.enable then t + PipelineProcessor.sharpR P else t) =
        t + PipelineProcessor.sharpR P := by
      intro t
      cases hsh : P.sharp.enable
      · simp [PipelineProcessor.sharpR, hsh]
      · simp
    show (let t0 : ℚ := 0
      let t1 := if P.mist.enable then max t0 (PipelineProcessor.mistR P) else t0
      let t2 := if P.blur.enable then t1 + PipelineProcessor.blurR P else t1
      let t3 := if P.halo.enable then t2 + PipelineProcessor.haloR P else t2
      let t4 := if P.glow.enable then t3 + PipelineProcessor.glowR P else t3
      let t5 := if P.sharp.enable then t4 + PipelineProcessor.sharpR P else t4
      if 0 < PipelineProcessor.defR P then t5 + PipelineProcessor.defR P else t5) = _
    dsimp only
    rw [hA, hB, hC, hD, hE]
    split <;> ring
  rw [PipelineProcessor.apron, hsum]

/-- Witness for C2 (amended): the summed-apron formula at the Mist+Blur
configuration, scale 1. -/
theorem claim_C2_witness :
    (0 : ℚ) ≤ procC2a.renderScaleX ∧
    PipelineProcessor.apron procC2a =
      ⌈PipelineProcessor.mistR procC2a + PipelineProcessor.blurR procC2a +
        PipelineProcessor.haloR procC2a + PipelineProcessor.glowR procC2a +
        PipelineProcessor.sharpR procC2a +
        (if 0 < PipelineProcessor.defR procC2a then PipelineProcessor.defR procC2a
          else 0)⌉ + 2 :=
  ⟨by norm_num [procC2a, procAllOff], claim_C2 procC2a (by norm_num [procC2a, procAllOff])⟩

namespace CinematicPlugin

/-- The amended passthrough characterisation of the identity query: every
module disabled or at the value the code treats as passthrough — Tonal
strength ≤ 0, HLP threshold ≥ 100 (outside the parameter's declared [0, 2]
range), PCR/Split/Grain/Dither/Streak/CA amount ≤ 0, CIT all-neutral, and
Energy/Mist/Blur/Glow/Sharp/Halation/Vignette plainly disabled. -/
def IdentitySpec (s : ParamSnapshot) : Prop :=
  (¬s.enableCIT ∨ (s.citExposure = 0 ∧ 1 ≤ s.citChromaCeiling ∧
    s.citWhiteBias = 0 ∧ s.citTemperature = 0 ∧ s.citTint = 0 ∧
    s.citGlobalSat = 1)) ∧
  (¬s.enablePCR ∨ s.pcrAmount ≤ 0) ∧
  (¬s.enableTonal ∨ s.tonalStrength ≤ 0) ∧
  ¬s.enableEnergy ∧
  (¬s.enableHLP ∨ 100 ≤ s.hlpThreshold) ∧
  (¬s.enableSplit ∨ s.splitStrength ≤ 0) ∧
  (¬s.enableGrain ∨ s.grainAmount ≤ 0) ∧
  (¬s.enableDither ∨ s.ditherAmount ≤ 0) ∧
  ¬s.enableMist ∧ ¬s.enableBlur ∧ ¬s.enableGlow ∧
  (¬s.enableStreak ∨ s.streakAmount ≤ 0) ∧
  ¬s.enableSharp ∧ ¬s.enableHalo ∧
  (¬s.enableCA ∨ s.caAmount ≤ 0) ∧
  ¬s.enableVignette

end CinematicPlugin

/-- Every module disabled/neutral except Highlight Protection, which is
enabled with its threshold at the parameter's declared maximum 2.0 (the
HLPThreshold range is [0, 2] in describeInContext). -/
def snapHLPMax : CinematicPlugin.ParamSnapshot :=
  ⟨false, 0, 1, 0, 0, 0, 1, false, 0, false, 1, false, true, 2, false, 0,
   false, 0, false, 0.5, false, false, false, false, 0, false, false, false,
   0, false⟩

/-- Counterexample for C4 as stated: a configuration in which every module is
disabled except Highlight Protection, enabled with threshold 2.0 — the
maximum of its declared [0, 2] range — is not reported as an identity: the
code requires threshold >= 100. -/
theorem claim_C4_counterexample :
    CinematicPlugin.isIdentity snapHLPMax = false := by
  norm_num [CinematicPlugin.isIdentity, snapHLPMax]

/-- C4 (amended).  The identity query returns true exactly when every module
is disabled or at a code-recognised passthrough value; Tonal with
strength = 0 does count as passthrough, but Highlight Protection only counts
as passthrough when its threshold is at least 100 — a value outside the
parameter's declared [0, 2] range — so an enabled Highlight Protection is
never treated as passthrough, threshold at the parameter maximum included. -/
theorem claim_C4 (s : CinematicPlugin.ParamSnapshot) :
    CinematicPlugin.isIdentity s = true ↔ CinematicPlugin.IdentitySpec s := by
  unfold CinematicPlugin.isIdentity CinematicPlugin.IdentitySpec
  simp only [Bool.and_eq_true, Bool.not_eq_true', Bool.and_eq_false_iff,
    Bool.not_eq_false', decide_eq_true_eq, decide_eq_false_iff_not,
    Bool.not_eq_true, not_lt, and_assoc]

namespace FilmGrain

/-- The uint32 core of hash2D before the 24-bit mask, as one closed form. -/
def hashCore (a b s : ℕ) : ℕ :=
  ((((a * 374761393 + b * 668265263) % 4294967296) ^^^
      (((a * 374761393 + b * 668265263) % 4294967296) >>> 13)) ^^^ s) *
    1274126177 % 4294967296

theorem hash2D_eval (x y seed : ℤ) :
    hash2D x y seed =
      ((hashCore (u32ofInt x) (u32ofInt y) (u32ofInt seed) &&& 16777215 : ℕ) : ℚ) /
        16777216 := rfl

end FilmGrain

/-- The grain parameters of the C8 failing input: enabled, full amount,
default size, all zone weights 1, temporal speed 0 (documented as fully
static), monochromatic. -/
def grainStatic : FilmGrain.Params := ⟨true, 1, 0.5, 1, 1, 1, 0, false, 0⟩

/-- C8.  Static grain at temporal-speed 0 is broken in the code: the frame
seed floor(time*24) is 0 at frame time 0 and 24 at frame time 1; the
temporal quantisation at speed 0 maps these to effective seeds 0 and 24 (the
quantisation interval is exactly the per-frame seed stride 24, so it never
collapses successive frames), and the grain noise applied to the pixel
(1, 1, 1) at coordinate (0, 0) in a 100×100 frame differs between the two
frame times — the grain is not static, contradicting both the spec and the
code's own comment ("0 = static grain (same every frame)"). -/
theorem claim_C8 :
    FilmGrain.effectiveSeedOf ⌊(0 : ℚ) * 24⌋ 0 = 0 ∧
    FilmGrain.effectiveSeedOf ⌊(1 : ℚ) * 24⌋ 0 = 24 ∧
    FilmGrain.applyGrain grainStatic 0 0 ⌊(0 : ℚ) * 24⌋ 100 100 ⟨1, 1, 1⟩ ≠
      FilmGrain.applyGrain grainStatic 0 0 ⌊(1 : ℚ) * 24⌋ 100 100 ⟨1, 1, 1⟩ := by
  have hf0 : (⌊(0 : ℚ) * 24⌋ : ℤ) = 0 := by norm_num
  have hf1 : (⌊(1 : ℚ) * 24⌋ : ℤ) = 24 := by norm_num
  have he0 : FilmGrain.effectiveSeedOf 0 0 = 0 := by
    unfold FilmGrain.effectiveSeedOf
    norm_num [truncQ, max_def]
  have he24 : FilmGrain.effectiveSeedOf 24 0 = 24 := by
    unfold FilmGrain.effectiveSeedOf
    norm_num [truncQ, max_def]
  refine ⟨by rw [hf0]; exact he0, by rw [hf1]; exact he24, ?_⟩
  rw [hf0, hf1]
  have hw : FilmGrain.computeWeight 1 grainStatic = 1 := by
    unfold FilmGrain.computeWeight grainStatic
    norm_num [Utils.smoothstep, max_def, min_def]
  have hh1 : FilmGrain.hash2D 0 0 0 = 0 := by
    rw [FilmGrain.hash2D_eval,
      show u32ofInt 0 = 0 from by decide,
      show (FilmGrain.hashCore 0 0 0 &&& 16777215) = 0 from by decide]
    norm_num
  have hh2 : FilmGrain.hash2D 17 29 0 = (8017096 : ℚ) / 16777216 := by
    rw [FilmGrain.hash2D_eval,
      show u32ofInt 17 = 17 from by decide,
      show u32ofInt 29 = 29 from by decide,
      show u32ofInt 0 = 0 from by decide,
      show (FilmGrain.hashCore 17 29 0 &&& 16777215) = 8017096 from by decide]
    norm_num
  have hh3 : FilmGrain.hash2D 0 0 24 = (10940696 : ℚ) / 16777216 := by
    rw [FilmGrain.hash2D_eval,
      show u32ofInt 0 = 0 from by decide,
      show u32ofInt 24 = 24 from by decide,
      show (FilmGrain.hashCore 0 0 24 &&& 16777215) = 10940696 from by decide]
    norm_num
  have hh4 : FilmGrain.hash2D 17 29 24 = (479184 : ℚ) / 16777216 := by
    rw [FilmGrain.hash2D_eval,
      show u32ofInt 17 = 17 from by decide,
      show u32ofInt 29 = 29 from by decide,
      show u32ofInt 24 = 24 from by decide,
      show (FilmGrain.hashCore 17 29 24 &&& 16777215) = 479184 from by decide]
    norm_num
  have heval : ∀ fs : ℤ,
      FilmGrain.applyGrain grainStatic 0 0 fs 100 100 ⟨1, 1, 1⟩ =
        ⟨1 + FilmGrain.gaussianApprox
            (FilmGrain.hash2D 0 0 (FilmGrain.effectiveSeedOf fs 0))
            (FilmGrain.hash2D 17 29 (FilmGrain.effectiveSeedOf fs 0)),
         1 + FilmGrain.gaussianApprox
            (FilmGrain.hash2D 0 0 (FilmGrain.effectiveSeedOf fs 0))
            (FilmGrain.hash2D 17 29 (FilmGrain.effectiveSeedOf fs 0)),
         1 + FilmGrain.gaussianApprox
            (FilmGrain.hash2D 0 0 (FilmGrain.effectiveSeedOf fs 0))
            (FilmGrain.hash2D 17 29 (FilmGrain.effectiveSeedOf fs 0))⟩ := by
    intro fs
    unfold FilmGrain.applyGrain
    rw [if_neg (by norm_num [grainStatic])]
    dsimp only
    rw [if_neg (by norm_num [grainStatic])]
    norm_num [grainStatic, truncQ, max_def, min_def, hw]
    rw [show FilmGrain.computeWeight 1 ⟨true, 1, 1 / 2, 1, 1, 1, 0, false, 0⟩ = 1 from by
      unfold FilmGrain.computeWeight
      norm_num [Utils.smoothstep, max_def, min_def]]
    ring
  rw [heval 0, heval 24, he0, he24, hh1, hh2, hh3, hh4]
  intro hcontra
  have hr := congrArg RGB.r hcontra
  norm_num [FilmGrain.gaussianApprox] at hr

/-- The C5 failing input: only Vignette enabled, type Defocus (2), amount 1,
size 0, roundness 0, softness 0.25, defocus amount 1, defocus softness 0.05,
on a 2×2 source. -/
def procC5 : PipelineProcessor.Proc :=
  { procAllOff with
    vig := ⟨true, 2, 1, false, 0, 0, 0.25, 1, 0.05, 0, 0, 0, 0, 0⟩
    rod := ⟨0, 0, 2, 2⟩ }

/-- C5.  Vignette Defocus does nothing in the code: with Vignette enabled in
Defocus mode at defocus amount 1, for every source image (with channel values
below the disabled-HLP threshold 100 at the probed pixel) and every math-ops
interpretation, the orchestrator's output at pixel (0, 0) — where the
vignette mask evaluates to 1 — is exactly the unblurred source pixel.  The
spec says the orchestrator blends a separately blurred copy under the mask,
so the output in masked regions should differ from the unblurred image; no
such blend exists anywhere in multiThreadProcessImages (defocusSoftness only
enlarges the apron), and Vignette::processPixel's eDefocus branch is an
explicit no-op. -/
theorem claim_C5 (ops : MathOps) (src : ℤ → ℤ → RGB)
    (hr : (src 0 0).r < 100) (hg : (src 0 0).g < 100) (hb : (src 0 0).b < 100) :
    PipelineProcessor.process ops procC5 ⟨0, 0, 2, 2⟩ src ⟨0, 0, 2, 2⟩ 0 0 =
      ⟨(src 0 0).r, (src 0 0).g, (src 0 0).b, 1⟩ ∧
    Vignette.computeMask ops procC5.vig 0 0 1 = 1 ∧
    procC5.vig.defocusAmount = 1 := by
  have hmask : Vignette.computeMask ops procC5.vig 0 0 1 = 1 := by
    unfold Vignette.computeMask
    dsimp only
    norm_num [procC5, procAllOff, Utils.mix, Utils.smoothstep, max_def, min_def]
    rw [show |(1 : ℚ) / 2| = 1 / 2 from by norm_num]
    norm_num
  have hvp : ∀ (c : RGB) (V : ℚ), Vignette.processPixel procC5.vig c V 0 = c := by
    intro c V
    unfold Vignette.processPixel
    rw [if_neg (show ¬¬(procC5.vig.enable = true) from by decide)]
    dsimp only
    rw [if_neg (show ¬(procC5.vig.invert = true) from by decide)]
    rw [if_neg (show ¬(procC5.vig.type = 0 ∨ procC5.vig.type = 1) from by decide)]
    exact ite_self c
  have htot : PipelineProcessor.totalR procC5 = 1 := by
    norm_num [PipelineProcessor.totalR, PipelineProcessor.mistR,
      PipelineProcessor.blurR, PipelineProcessor.haloR, PipelineProcessor.glowR,
      PipelineProcessor.sharpR, PipelineProcessor.defR, procC5, procAllOff]
  have hap : PipelineProcessor.apron procC5 = 3 := by
    rw [PipelineProcessor.apron, htot]
    have h1 : (⌈(1 : ℚ)⌉ : ℤ) = 1 := by rw [Int.ceil_eq_iff] <;> norm_num
    omega
  have htonal : ∀ c : RGB, TonalEngine.processPixel ops procC5.tonal c = c := by
    intro c
    unfold TonalEngine.processPixel
    rw [if_pos (show procC5.tonal.strength ≤ 0 from by norm_num [procC5, procAllOff])]
  have hcomp : ∀ v : ℚ, v < 100 → HighlightProtection.compress procC5.hlp v = v := by
    intro v hv
    unfold HighlightProtection.compress
    exact if_pos hv
  have hhlp : ∀ c : RGB, c.r < 100 → c.g < 100 → c.b < 100 →
      HighlightProtection.processPixel procC5.hlp c = c := by
    intro c h1 h2 h3
    unfold HighlightProtection.processPixel
    rw [if_neg (show ¬(procC5.hlp.preserveColor = true) from by decide)]
    rw [hcomp _ h1, hcomp _ h2, hcomp _ h3]
  have hs0 : ∀ (fs iW iH bX bY : ℤ) (y x : ℕ), bX + (x : ℤ) = 0 → bY + (y : ℤ) = 0 →
      PipelineProcessor.stage0 ops procC5 ⟨0, 0, 2, 2⟩ src bX bY fs iW iH y x =
        ⟨(src 0 0).r, (src 0 0).g, (src 0 0).b, 1⟩ := by
    intro fs iW iH bX bY y x hx hy
    unfold PipelineProcessor.stage0
    dsimp only
    rw [hx, hy]
    rw [show PipelineProcessor.getSrcPixel ⟨0, 0, 2, 2⟩ src 0 0 = src 0 0 from by
      unfold PipelineProcessor.getSrcPixel
      rw [if_pos (by decide)]]
    rw [if_neg (show ¬(procC5.cit.enable = true) from by decide)]
    rw [if_neg (show ¬(procC5.pcr.enable = true) from by decide)]
    rw [htonal]
    rw [if_neg (show ¬(procC5.energy.enable = true) from by decide)]
    rw [hhlp _ hr hg hb]
    rw [if_neg (show ¬(procC5.split.enable = true) from by decide)]
    rw [if_neg (show ¬(procC5.grain.enable = true) from by decide)]
    rw [if_neg (show ¬(procC5.dither.enable = true) from by decide)]
  have hmistS : ∀ (b : ℕ → ℕ → Pix) (w h : ℕ),
      PipelineProcessor.mistStage ops procC5 b w h = b := by
    intro b w h
    unfold PipelineProcessor.mistStage
    rw [if_neg (show ¬(procC5.mist.enable = true) from by decide)]
  have hblurS : ∀ (b : ℕ → ℕ → Pix) (w h : ℕ),
      PipelineProcessor.dreamyBlurStage ops procC5 b w h = b := by
    intro b w h
    unfold PipelineProcessor.dreamyBlurStage
    rw [if_neg (show ¬(procC5.blur.enable = true) from by decide)]
  have hglowS : ∀ (b : ℕ → ℕ → Pix) (w h : ℕ),
      PipelineProcessor.glowStage ops procC5 b w h = b := by
    intro b w h
    unfold PipelineProcessor.glowStage
    rw [if_neg (show ¬(procC5.glow.enable = true) from by decide)]
  have hstreakS : ∀ (b : ℕ → ℕ → Pix) (w h : ℕ),
      PipelineProcessor.streakStage procC5 b w h = b := by
    intro b w h
    unfold PipelineProcessor.streakStage
    rw [if_neg (show ¬(procC5.streak.enable = true) from by decide)]
  have hsharpS : ∀ (b : ℕ → ℕ → Pix) (w h : ℕ),
      PipelineProcessor.sharpStage procC5 b w h = b := by
    intro b w h
    unfold PipelineProcessor.sharpStage
    rw [if_neg (show ¬(procC5.sharp.enable = true) from by decide)]
  have hhaloS : ∀ (b : ℕ → ℕ → Pix) (w h : ℕ),
      PipelineProcessor.haloStage ops procC5 b w h = b := by
    intro b w h
    unfold PipelineProcessor.haloStage
    rw [if_neg (show ¬(procC5.halo.enable = true) from by decide)]
  have hcaS : ∀ (iW iH bX bY : ℤ) (b : ℕ → ℕ → Pix) (w h : ℕ),
      PipelineProcessor.caStage ops procC5 iW iH bX bY b w h = b := by
    intro iW iH bX bY b w h
    unfold PipelineProcessor.caStage
    rw [if_neg (show ¬(procC5.ca.enable = true) from by decide)]
  have hvigS : ∀ (iW iH bX bY : ℤ) (b : ℕ → ℕ → Pix) (w h : ℕ) (y x : ℕ),
      PipelineProcessor.vigStage ops procC5 iW iH bX bY b w h y x = b y x := by
    intro iW iH bX bY b w h y x
    unfold PipelineProcessor.vigStage
    rw [if_pos (show procC5.vig.enable = true from by decide)]
    dsimp only
    rw [hvp]
    rfl
  refine ⟨?_, hmask, rfl⟩
  unfold PipelineProcessor.process
  dsimp only
  rw [hap]
  rw [hvigS, hcaS, hhaloS, hsharpS, hstreakS, hglowS, hblurS, hmistS]
  rw [hs0] <;> decide

/-- Witness for C5: at the identity-power math ops and the constant (1, 2, 3)
source, the pipeline output at (0, 0) is exactly the source pixel (1, 2, 3, 1)
even though the vignette-defocus mask there is 1 at defocus amount 1. -/
theorem claim_C5_witness :
    PipelineProcessor.process opsPowId procC5 ⟨0, 0, 2, 2⟩ (fun _ _ => ⟨1, 2, 3⟩)
        ⟨0, 0, 2, 2⟩ 0 0 = ⟨1, 2, 3, 1⟩ ∧
    Vignette.computeMask opsPowId procC5.vig 0 0 1 = 1 ∧
    procC5.vig.defocusAmount = 1 :=
  claim_C5 opsPowId (fun _ _ => ⟨1, 2, 3⟩) (by norm_num) (by norm_num) (by norm_num)

namespace Utils

theorem slideSum_nonneg_on (row : ℕ → ℚ) (w r : ℕ)
    (hrow : ∀ i, i < w → 0 ≤ row i) :
    ∀ x, x < w → 0 ≤ slideSum row w r x := by
  intro x hx
  rw [slideSum_rep row w r x hx]
  have hA : 0 ≤ ∑ i ∈ Finset.range (r + 1), row (min (x + i) (w - 1)) :=
    Finset.sum_nonneg fun i _ => hrow _ (by omega)
  have hB : 0 ≤ ∑ i ∈ Finset.range r, row (x - (1 + i)) :=
    Finset.sum_nonneg fun i _ => hrow _ (by omega)
  linarith

/-- A buffer has nonnegative RGB channels on the w×h extent. -/
def NonnegExt (src : ℕ → ℕ → Pix) (w h : ℕ) : Prop :=
  ∀ y x, y < h → x < w →
    0 ≤ (src y x).r ∧ 0 ≤ (src y x).g ∧ 0 ≤ (src y x).b

theorem boxBlurH_nonnegExt {src : ℕ → ℕ → Pix} {w h : ℕ} (r : ℕ)
    (hs : NonnegExt src w h) : NonnegExt (boxBlurH src w h r) w h := by
  intro y x hy hx
  unfold boxBlurH
  split
  · exact hs y x hy hx
  · dsimp only
    refine ⟨?_, ?_, ?_⟩ <;>
      exact mul_nonneg
        (slideSum_nonneg_on _ w r (fun i hi => by
          first
          | exact (hs y i hy hi).1
          | exact (hs y i hy hi).2.1
          | exact (hs y i hy hi).2.2) x hx)
        (invK_nonneg r)

theorem boxBlurV_nonnegExt {src : ℕ → ℕ → Pix} {w h : ℕ} (r : ℕ)
    (hs : NonnegExt src w h) : NonnegExt (boxBlurV src w h r) w h := by
  intro y x hy hx
  unfold boxBlurV
  split
  · exact hs y x hy hx
  · dsimp only
    refine ⟨?_, ?_, ?_⟩ <;>
      exact mul_nonneg
        (slideSum_nonneg_on _ h r (fun j hj => by
          first
          | exact (hs j x hj hx).1
          | exact (hs j x hj hx).2.1
          | exact (hs j x hj hx).2.2) y hy)
        (invK_nonneg r)

theorem gaussianBlur_nonnegExt {src : ℕ → ℕ → Pix} {w h : ℕ} (r : ℕ)
    (hs : NonnegExt src w h) : NonnegExt (gaussianBlur src w h r) w h := by
  unfold gaussianBlur
  split
  · exact hs
  · exact boxBlurV_nonnegExt _ (boxBlurH_nonnegExt _ (boxBlurV_nonnegExt _
      (boxBlurH_nonnegExt _ (boxBlurV_nonnegExt _ (boxBlurH_nonnegExt _ hs)))))

end Utils

/-- The C3 counterexample configuration: only Cinematic Glow enabled, amount 1,
threshold 0, knee 0, radius 1, full colour fidelity, full warmth. -/
def procC3 : PipelineProcessor.Proc :=
  { procAllOff with glow := ⟨true, 1, 0, 0, 1, 1, 1⟩ }

/-- Counterexample for C3 as stated: the claim quantifies over every input
frame including negative channel values, but Glow darkens the pixel
(-30, 13, 0) (luminance 2.9196 > 0): the glow source is (-45, 13, 0) after the
warmth boost of the negative red channel, the blur of the constant 1×1 buffer
is that same colour, and the additive apply drops the luminance to 2.6502. -/
theorem claim_C3_counterexample :
    0 < procC3.glow.amount ∧
    Utils.lumP (PipelineProcessor.glowStage opsPowId procC3
        (fun _ _ => ⟨-30, 13, 0, 1⟩) 1 1 0 0) <
      Utils.lumP ⟨-30, 13, 0, 1⟩ := by
  constructor
  · norm_num [procC3, procAllOff]
  · unfold PipelineProcessor.glowStage
    rw [if_pos (show procC3.glow.enable = true from by decide)]
    dsimp only [Pix.rgb]
    have hgs : CinematicGlow.computeGlowSource procC3.glow ⟨-30, 13, 0⟩ =
        ⟨-45, 13, 0⟩ := by
      norm_num [CinematicGlow.computeGlowSource, Utils.getLuminance,
        Utils.smoothstep, Utils.mix, max_def, min_def, procC3, procAllOff]
    rw [hgs]
    dsimp only
    have hflat : Utils.FlatOn (fun _ _ : ℕ => (⟨-45, 13, 0, 0⟩ : Pix)) 1 1
        (-45) 13 0 := by
      intro y x hy hx
      exact ⟨rfl, rfl, rfl⟩
    have hblur := Utils.gaussianBlur_flat
      ((max 1 ⌈PipelineProcessor.glowR procC3⌉).toNat) hflat 0 0
      (by norm_num) (by norm_num)
    obtain ⟨hbr, hbg, hbb⟩ := hblur
    unfold CinematicGlow.applyGlow
    rw [if_neg (show ¬¬(procC3.glow.enable = true) from by decide)]
    dsimp only
    rw [hbr, hbg, hbb]
    norm_num [Utils.lumP, Utils.getLuminance, procC3, procAllOff]

namespace Utils

theorem mix_nonneg {a b f : ℚ} (ha : 0 ≤ a) (hb : 0 ≤ b) (h0 : 0 ≤ f)
    (h1 : f ≤ 1) : 0 ≤ mix a b f := by
  unfold mix
  nlinarith

end Utils

/-- The mist source is channel-wise nonnegative on nonnegative input when the
colour bias is in its declared [-1, 1] range and pow preserves nonnegativity. -/
theorem mistSource_nonneg (ops : MathOps) (p : DreamyMist.Params)
    (hpw : ∀ x e : ℚ, 0 ≤ x → 0 ≤ ops.pw x e) (hcb : |p.colorBias| ≤ 1)
    (c : RGB) (h1 : 0 ≤ c.r) (h2 : 0 ≤ c.g) (h3 : 0 ≤ c.b) :
    0 ≤ (DreamyMist.computeMistSource ops p c).r ∧
    0 ≤ (DreamyMist.computeMistSource ops p c).g ∧
    0 ≤ (DreamyMist.computeMistSource ops p c).b := by
  have hcb' := abs_le.mp hcb
  unfold DreamyMist.computeMistSource
  split
  · norm_num
  · dsimp only
    have hL : 0 ≤ Utils.getLuminance c.r c.g c.b :=
      Utils.getLuminance_nonneg h1 h2 h3
    refine ⟨mul_nonneg (mul_nonneg hL ?_) ?_, mul_nonneg hL ?_,
      mul_nonneg (mul_nonneg hL ?_) ?_⟩
    · split
      · exact hpw _ _ (Utils.smoothstep_nonneg _ _ _)
      · exact Utils.smoothstep_nonneg _ _ _
    · split
      · linarith
      · split
        · rw [abs_of_neg (by assumption)]
          linarith [hcb'.1]
        · norm_num
    · split
      · exact hpw _ _ (Utils.smoothstep_nonneg _ _ _)
      · exact Utils.smoothstep_nonneg _ _ _
    · split
      · exact hpw _ _ (Utils.smoothstep_nonneg _ _ _)
      · exact Utils.smoothstep_nonneg _ _ _
    · split
      · linarith [hcb'.2]
      · split
        · rw [abs_of_neg (by assumption)]
          linarith
        · norm_num

/-- The glow source is channel-wise nonnegative on nonnegative input when
warmth is in [-1, 1] and colour fidelity in [0, 1]. -/
theorem glowSource_nonneg (p : CinematicGlow.Params)
    (hw : |p.warmth| ≤ 1) (hf0 : 0 ≤ p.colorFidelity) (hf1 : p.colorFidelity ≤ 1)
    (c : RGB) (h1 : 0 ≤ c.r) (h2 : 0 ≤ c.g) (h3 : 0 ≤ c.b) :
    0 ≤ (CinematicGlow.computeGlowSource p c).r ∧
    0 ≤ (CinematicGlow.computeGlowSource p c).g ∧
    0 ≤ (CinematicGlow.computeGlowSource p c).b := by
  have hw' := abs_le.mp hw
  unfold CinematicGlow.computeGlowSource
  split
  · norm_num
  · dsimp only
    have hL : 0 ≤ Utils.getLuminance c.r c.g c.b :=
      Utils.getLuminance_nonneg h1 h2 h3
    have hm : (0 : ℚ) ≤ Utils.smoothstep p.threshold (p.threshold + p.knee + 0.001)
        (Utils.getLuminance c.r c.g c.b) := Utils.smoothstep_nonneg _ _ _
    have hbase : ∀ u M : ℚ, 0 ≤ u → 0 ≤ M →
        0 ≤ Utils.mix (Utils.getLuminance c.r c.g c.b * M) (u * M)
          p.colorFidelity := by
      intro u M hu hM
      exact Utils.mix_nonneg (mul_nonneg hL hM) (mul_nonneg hu hM) hf0 hf1
    split
    · exact ⟨mul_nonneg (hbase c.r _ h1 hm) (by linarith),
        hbase c.g _ h2 hm,
        mul_nonneg (hbase c.b _ h3 hm) (by linarith)⟩
    · split
      · rw [abs_of_neg (by assumption)]
        exact ⟨mul_nonneg (hbase c.r _ h1 hm) (by linarith),
          hbase c.g _ h2 hm,
          mul_nonneg (hbase c.b _ h3 hm) (by linarith)⟩
      · exact ⟨hbase c.r _ h1 hm, hbase c.g _ h2 hm, hbase c.b _ h3 hm⟩

/-- The streak source is channel-wise nonnegative on nonnegative input. -/
theorem streakSource_nonneg (p : AnamorphicStreak.Params) (c : RGB)
    (h1 : 0 ≤ c.r) (h2 : 0 ≤ c.g) (h3 : 0 ≤ c.b) :
    0 ≤ (AnamorphicStreak.computeStreakSource p c).r ∧
    0 ≤ (AnamorphicStreak.computeStreakSource p c).g ∧
    0 ≤ (AnamorphicStreak.computeStreakSource p c).b := by
  unfold AnamorphicStreak.computeStreakSource
  dsimp only
  split
  · norm_num
  · have hm : (0 : ℚ) ≤ Utils.smoothstep p.threshold (p.threshold + 0.3)
        (Utils.getLuminance c.r c.g c.b) := Utils.smoothstep_nonneg _ _ _
    exact ⟨mul_nonneg h1 hm, mul_nonneg h2 hm, mul_nonneg h3 hm⟩

/-- The halation source (skin mask 0) is channel-wise nonnegative on input
with nonnegative red channel when the hue shift is zero. -/
theorem haloSource_nonneg (ops : MathOps) (p : Halation.Params)
    (hcos1 : ops.cos 0 = 1) (hsin0 : ops.sin 0 = 0) (hhue : p.hueShift = 0)
    (c : RGB) (h1 : 0 ≤ c.r) :
    0 ≤ (Halation.computeHalationSource ops p c 0).r ∧
    0 ≤ (Halation.computeHalationSource ops p c 0).g ∧
    0 ≤ (Halation.computeHalationSource ops p c 0).b := by
  unfold Halation.computeHalationSource
  split
  · norm_num
  · dsimp only
    split
    · norm_num
    · rw [hhue]
      rw [show (0 : ℚ) * 0.0174532925 = 0 from by norm_num, hcos1, hsin0]
      have hm : (0 : ℚ) ≤ Utils.smoothstep p.threshold (p.threshold + p.knee)
          (Utils.getLuminance c.r c.g c.b) * (1 - 0) := by
        have := Utils.smoothstep_nonneg p.threshold (p.threshold + p.knee)
          (Utils.getLuminance c.r c.g c.b)
        linarith
      have hmg : (0 : ℚ) ≤ max 0 (0.1 + p.warmth * 0.4) := le_max_left _ _
      refine ⟨?_, ?_, ?_⟩ <;>
        nlinarith [mul_nonneg (mul_nonneg h1 hm) hmg, mul_nonneg h1 hm]

/-- C3 (amended).  Energy conservation holds for nonnegative input frames and
in-range parameters, not for arbitrary float inputs: on a buffer whose RGB
channels are nonnegative over the extent, with colour bias, warmth and tint in
their declared [-1, 1] ranges, fidelity in [0, 1], nonnegative amounts, a pow
that preserves nonnegativity, and for Halation a zero hue shift, each of the
Mist, Glow, Streak and Halation stage cycles (extract → blur → apply) never
decreases the luminance of any pixel of the extent. -/
theorem claim_C3 (ops : MathOps)
    (hpw : ∀ x e : ℚ, 0 ≤ x → 0 ≤ ops.pw x e)
    (hcos1 : ops.cos 0 = 1) (hsin0 : ops.sin 0 = 0)
    (P : PipelineProcessor.Proc)
    (hmi : 0 ≤ P.mist.strength) (hmb : |P.mist.colorBias| ≤ 1)
    (hga : 0 ≤ P.glow.amount) (hgw : |P.glow.warmth| ≤ 1)
    (hgf0 : 0 ≤ P.glow.colorFidelity) (hgf1 : P.glow.colorFidelity ≤ 1)
    (hst : |P.streak.tint| ≤ 1)
    (hhue : P.halo.hueShift = 0)
    (buf : ℕ → ℕ → Pix) (w h y x : ℕ) (hy : y < h) (hx : x < w)
    (hbuf : Utils.NonnegExt buf w h) :
    Utils.lumP (buf y x) ≤
        Utils.lumP (PipelineProcessor.mistStage ops P buf w h y x) ∧
    Utils.lumP (buf y x) ≤
        Utils.lumP (PipelineProcessor.glowStage ops P buf w h y x) ∧
    Utils.lumP (buf y x) ≤
        Utils.lumP (PipelineProcessor.streakStage P buf w h y x) ∧
    Utils.lumP (buf y x) ≤
        Utils.lumP (PipelineProcessor.haloStage ops P buf w h y x) := by
  refine ⟨?_, ?_, ?_, ?_⟩
  · -- Mist
    unfold PipelineProcessor.mistStage
    split
    · rename_i hen
      dsimp only [Pix.rgb]
      have hsrcExt : Utils.NonnegExt (fun j i =>
          (⟨(DreamyMist.computeMistSource ops P.mist
              ⟨(buf j i).r, (buf j i).g, (buf j i).b⟩).r,
            (DreamyMist.computeMistSource ops P.mist
              ⟨(buf j i).r, (buf j i).g, (buf j i).b⟩).g,
            (DreamyMist.computeMistSource ops P.mist
              ⟨(buf j i).r, (buf j i).g, (buf j i).b⟩).b, 0⟩ : Pix)) w h := by
        intro j i hj hi
        exact mistSource_nonneg ops P.mist hpw hmb _ (hbuf j i hj hi).1
          (hbuf j i hj hi).2.1 (hbuf j i hj hi).2.2
      have hblurExt := Utils.gaussianBlur_nonnegExt
        ((max 1 ⌈PipelineProcessor.mistR P⌉).toNat) hsrcExt
      obtain ⟨hbr, hbg, hbb⟩ := hblurExt y x hy hx
      unfold DreamyMist.applyMist
      rw [if_neg (not_not_intro hen)]
      dsimp only [Utils.lumP, Utils.getLuminance]
      have t1 := mul_nonneg hbr hmi
      have t2 := mul_nonneg hbg hmi
      have t3 := mul_nonneg hbb hmi
      linarith
    · exact le_refl _
  · -- Glow
    unfold PipelineProcessor.glowStage
    split
    · rename_i hen
      dsimp only [Pix.rgb]
      have hsrcExt : Utils.NonnegExt (fun j i =>
          (⟨(CinematicGlow.computeGlowSource P.glow
              ⟨(buf j i).r, (buf j i).g, (buf j i).b⟩).r,
            (CinematicGlow.computeGlowSource P.glow
              ⟨(buf j i).r, (buf j i).g, (buf j i).b⟩).g,
            (CinematicGlow.computeGlowSource P.glow
              ⟨(buf j i).r, (buf j i).g, (buf j i).b⟩).b, 0⟩ : Pix)) w h := by
        intro j i hj hi
        exact glowSource_nonneg P.glow hgw hgf0 hgf1 _ (hbuf j i hj hi).1
          (hbuf j i hj hi).2.1 (hbuf j i hj hi).2.2
      have hblurExt := Utils.gaussianBlur_nonnegExt
        ((max 1 ⌈PipelineProcessor.glowR P⌉).toNat) hsrcExt
      obtain ⟨hbr, hbg, hbb⟩ := hblurExt y x hy hx
      unfold CinematicGlow.applyGlow
      rw [if_neg (not_not_intro hen)]
      dsimp only [Utils.lumP, Utils.getLuminance]
      have t1 := mul_nonneg hbr hga
      have t2 := mul_nonneg hbg hga
      have t3 := mul_nonneg hbb hga
      linarith
    · exact le_refl _
  · -- Streak
    unfold PipelineProcessor.streakStage
    split
    · rename_i hen
      dsimp only [Pix.rgb]
      rw [AnamorphicStreak.boxBlurH1D_eq_boxBlurH]
      have hsrcExt : Utils.NonnegExt (fun j i =>
          (⟨(AnamorphicStreak.computeStreakSource P.streak
              ⟨(buf j i).r, (buf j i).g, (buf j i).b⟩).r,
            (AnamorphicStreak.computeStreakSource P.streak
              ⟨(buf j i).r, (buf j i).g, (buf j i).b⟩).g,
            (AnamorphicStreak.computeStreakSource P.streak
              ⟨(buf j i).r, (buf j i).g, (buf j i).b⟩).b, 0⟩ : Pix)) w h := by
        intro j i hj hi
        exact streakSource_nonneg P.streak _ (hbuf j i hj hi).1
          (hbuf j i hj hi).2.1 (hbuf j i hj hi).2.2
      have hp3 := Utils.boxBlurH_nonnegExt
        ((max 1 (truncQ (P.streak.length * 80 * P.renderScaleX))).toNat)
        (Utils.boxBlurH_nonnegExt
          ((max 1 (truncQ (P.streak.length * 80 * P.renderScaleX))).toNat)
          (Utils.boxBlurH_nonnegExt
            ((max 1 (truncQ (P.streak.length * 80 * P.renderScaleX))).toNat)
            hsrcExt))
      obtain ⟨hbr, hbg, hbb⟩ := hp3 y x hy hx
      unfold AnamorphicStreak.applyStreak
      split
      · exact le_refl _
      · rename_i hamt
        have hamt' : 0 ≤ P.streak.amount := le_of_lt (lt_of_not_le hamt)
        have hst' := abs_le.mp hst
        dsimp only [Utils.lumP, Utils.getLuminance]
        split
        · have f1 : (0 : ℚ) ≤ 1 + P.streak.tint * 0.3 := by linarith
          have f2 : (0 : ℚ) ≤ 1 + P.streak.tint * 0.1 := by linarith
          have f3 : (0 : ℚ) ≤ 1 - P.streak.tint * 0.2 := by linarith
          have t1 := mul_nonneg (mul_nonneg hbr f1) hamt'
          have t2 := mul_nonneg (mul_nonneg hbg f2) hamt'
          have t3 := mul_nonneg (mul_nonneg hbb f3) hamt'
          dsimp only
          linarith
        · split
          · have f1 : (0 : ℚ) ≤ 1 - -P.streak.tint * 0.2 := by linarith
            have f3 : (0 : ℚ) ≤ 1 + -P.streak.tint * 0.3 := by linarith
            have t1 := mul_nonneg (mul_nonneg hbr f1) hamt'
            have t2 := mul_nonneg hbg hamt'
            have t3 := mul_nonneg (mul_nonneg hbb f3) hamt'
            dsimp only
            linarith
          · have t1 := mul_nonneg hbr hamt'
            have t2 := mul_nonneg hbg hamt'
            have t3 := mul_nonneg hbb hamt'
            dsimp only
            linarith
    · exact le_refl _
  · -- Halation
    unfold PipelineProcessor.haloStage
    split
    · rename_i hen
      dsimp only [Pix.rgb]
      have hsrcExt : Utils.NonnegExt (fun j i =>
          (⟨(Halation.computeHalationSource ops P.halo
              ⟨(buf j i).r, (buf j i).g, (buf j i).b⟩ 0).r,
            (Halation.computeHalationSource ops P.halo
              ⟨(buf j i).r, (buf j i).g, (buf j i).b⟩ 0).g,
            (Halation.computeHalationSource ops P.halo
              ⟨(buf j i).r, (buf j i).g, (buf j i).b⟩ 0).b, 0⟩ : Pix)) w h := by
        intro j i hj hi
        exact haloSource_nonneg ops P.halo hcos1 hsin0 hhue _ (hbuf j i hj hi).1
      have hblurExt := Utils.gaussianBlur_nonnegExt
        ((max 1 ⌈PipelineProcessor.haloR P⌉).toNat) hsrcExt
      obtain ⟨hbr, hbg, hbb⟩ := hblurExt y x hy hx
      unfold Halation.applyHalation
      split
      · exact le_refl _
      · rename_i hcond
        push_neg at hcond
        have hamt' : 0 ≤ P.halo.amount := le_of_lt hcond.2
        dsimp only [Utils.lumP, Utils.getLuminance]
        split
        · have hsat0 : (0 : ℚ) ≤ max 0 (min 1 P.halo.saturation) :=
            le_max_left _ _
          have hsat1 : max 0 (min 1 P.halo.saturation) ≤ 1 :=
            max_le (by norm_num) (min_le_left _ _)
          have hL0 := Utils.getLuminance_nonneg hbr hbg hbb
          unfold Utils.getLuminance at hL0
          have m1 := Utils.mix_nonneg hL0 hbr hsat0 hsat1
          have m2 := Utils.mix_nonneg hL0 hbg hsat0 hsat1
          have m3 := Utils.mix_nonneg hL0 hbb hsat0 hsat1
          have t1 := mul_nonneg m1 hamt'
          have t2 := mul_nonneg m2 hamt'
          have t3 := mul_nonneg m3 hamt'
          dsimp only
          linarith
        · have t1 := mul_nonneg hbr hamt'
          have t2 := mul_nonneg hbg hamt'
          have t3 := mul_nonneg hbb hamt'
          dsimp only
          linarith
    · exact le_refl _

/-- A configuration with Mist, Glow, Streak and Halation all enabled at
in-range parameters (hue shift 0). -/
def procC3w : PipelineProcessor.Proc :=
  { procAllOff with
    mist := ⟨true, 1, 0.5, 0.5, 1, 0, 6⟩
    glow := ⟨true, 1, 0.8, 0.5, 10, 0.5, 0⟩
    streak := ⟨true, 1, 0.8, 0.5, 0⟩
    halo := ⟨true, 1, 0.8, 0.5, 0, 10, 1, 0⟩ }

/-- Witness for the amended C3: on the constant nonnegative buffer (1, 2, 3)
with all four effects enabled at in-range parameters, none of the four stages
darkens the corner pixel of a 1×1 extent. -/
theorem claim_C3_witness :
    Utils.lumP ((fun _ _ => (⟨1, 2, 3, 1⟩ : Pix)) 0 0) ≤
        Utils.lumP (PipelineProcessor.mistStage opsPowId procC3w
          (fun _ _ => ⟨1, 2, 3, 1⟩) 1 1 0 0) ∧
    Utils.lumP ((fun _ _ => (⟨1, 2, 3, 1⟩ : Pix)) 0 0) ≤
        Utils.lumP (PipelineProcessor.glowStage opsPowId procC3w
          (fun _ _ => ⟨1, 2, 3, 1⟩) 1 1 0 0) ∧
    Utils.lumP ((fun _ _ => (⟨1, 2, 3, 1⟩ : Pix)) 0 0) ≤
        Utils.lumP (PipelineProcessor.streakStage procC3w
          (fun _ _ => ⟨1, 2, 3, 1⟩) 1 1 0 0) ∧
    Utils.lumP ((fun _ _ => (⟨1, 2, 3, 1⟩ : Pix)) 0 0) ≤
        Utils.lumP (PipelineProcessor.haloStage opsPowId procC3w
          (fun _ _ => ⟨1, 2, 3, 1⟩) 1 1 0 0) :=
  claim_C3 opsPowId (fun _ _ hx => hx) rfl rfl procC3w
    (by norm_num [procC3w, procAllOff]) (by norm_num [procC3w, procAllOff])
    (by norm_num [procC3w, procAllOff]) (by norm_num [procC3w, procAllOff])
    (by norm_num [procC3w, procAllOff]) (by norm_num [procC3w, procAllOff])
    (by norm_num [procC3w, procAllOff]) (by norm_num [procC3w, procAllOff])
    (fun _ _ => ⟨1, 2, 3, 1⟩) 1 1 0 0 (by norm_num) (by norm_num)
    (fun _ _ _ _ => by norm_num)

/-- The C1 failing configuration: only Anamorphic Streak enabled (amount 1,
threshold 0.8, length 1/80 so the streak radius is exactly 1 px, no tint).
The streak radius is absent from the apron combination, which is the bug. -/
def procC1 : PipelineProcessor.Proc :=
  { procAllOff with
    streak := ⟨true, 1, 0.8, 1/80, 0⟩
    rod := ⟨0, 0, 8, 1⟩ }

/-- The C1 source frame: an 8×1 image, black except for the superwhite pixel
(2, 2, 2) at x = 5. -/
def srcC1 : ℤ → ℤ → RGB := fun x _ => if x = 5 then ⟨2, 2, 2⟩ else ⟨0, 0, 0⟩

/-- One horizontal box-blur pass at radius 1, evaluated as the clamped
three-sample window. -/
theorem boxBlurH1_eval {src : ℕ → ℕ → Pix} {w h : ℕ} (y x : ℕ) (hx : x < w) :
    Utils.boxBlurH src w h 1 y x =
      ⟨((src y x).r + (src y (min (x + 1) (w - 1))).r + (src y (x - 1)).r) / 3,
       ((src y x).g + (src y (min (x + 1) (w - 1))).g + (src y (x - 1)).g) / 3,
       ((src y x).b + (src y (min (x + 1) (w - 1))).b + (src y (x - 1)).b) / 3,
       (src y x).a⟩ := by
  unfold Utils.boxBlurH
  rw [if_neg (by norm_num)]
  have e : ∀ f : ℕ → ℚ,
      Utils.slideSum f w 1 x = f x + f (min (x + 1) (w - 1)) + f (x - 1) := by
    intro f
    rw [Utils.slideSum_rep f w 1 x hx]
    rw [Finset.sum_range_succ, Finset.sum_range_succ, Finset.sum_range_zero,
      Finset.sum_range_one]
    rw [show min (x + 0) (w - 1) = x from by omega,
      show x - (1 + 0) = x - 1 from by omega]
    ring
  rw [e (fun i => (src y i).r), e (fun i => (src y i).g), e (fun i => (src y i).b)]
  norm_num
  refine ⟨by ring, by ring, by ring⟩

/-- C1.  Tile invariance fails in the code: with only the Anamorphic Streak
enabled (radius 1 px), the streak radius is never added to the apron (the
radius combination covers mist, soft blur, halation, glow, sharpening and
defocus only), so the streak's horizontal box blur reads the replicate-edge
clamp of its own working buffer.  Processing the 8×1 frame that is black
except for (2, 2, 2) at x = 5 once with the full window [0,8)×[0,1) and once
with the tile [0,4)×[0,1) gives different values at the shared output pixel
(3, 0): the tile's buffer ends 2 px past its window, the bright pixel sits on
the tile buffer's edge, the edge clamp double-counts it, and the pixel reads
8/27 instead of the full-frame 2/9 = 6/27. -/
theorem claim_C1 :
    PipelineProcessor.process opsPowId procC1 ⟨0, 0, 8, 1⟩ srcC1 ⟨0, 0, 4, 1⟩ 3 0 =
      ⟨8/27, 8/27, 8/27, 1⟩ ∧
    PipelineProcessor.process opsPowId procC1 ⟨0, 0, 8, 1⟩ srcC1 ⟨0, 0, 8, 1⟩ 3 0 =
      ⟨2/9, 2/9, 2/9, 1⟩ ∧
    PipelineProcessor.process opsPowId procC1 ⟨0, 0, 8, 1⟩ srcC1 ⟨0, 0, 4, 1⟩ 3 0 ≠
      PipelineProcessor.process opsPowId procC1 ⟨0, 0, 8, 1⟩ srcC1 ⟨0, 0, 8, 1⟩ 3 0 := by
  have htot : PipelineProcessor.totalR procC1 = 0 := by
    norm_num [PipelineProcessor.totalR, PipelineProcessor.mistR,
      PipelineProcessor.blurR, PipelineProcessor.haloR, PipelineProcessor.glowR,
      PipelineProcessor.sharpR, PipelineProcessor.defR, procC1, procAllOff]
  have hap : PipelineProcessor.apron procC1 = 2 := by
    rw [PipelineProcessor.apron, htot]
    have h1 : (⌈(0 : ℚ)⌉ : ℤ) = 0 := by norm_num
    omega
  have htonal : ∀ c : RGB, TonalEngine.processPixel opsPowId procC1.tonal c = c := by
    intro c
    unfold TonalEngine.processPixel
    rw [if_pos (show procC1.tonal.strength ≤ 0 from by
      norm_num [procC1, procAllOff])]
  have hcomp : ∀ v : ℚ, v < 100 → HighlightProtection.compress procC1.hlp v = v := by
    intro v hv
    unfold HighlightProtection.compress
    exact if_pos hv
  have hhlp : ∀ c : RGB, c.r < 100 → c.g < 100 → c.b < 100 →
      HighlightProtection.processPixel procC1.hlp c = c := by
    intro c h1 h2 h3
    unfold HighlightProtection.processPixel
    rw [if_neg (show ¬(procC1.hlp.preserveColor = true) from by decide)]
    rw [hcomp _ h1, hcomp _ h2, hcomp _ h3]
  have hsv : ∀ a b : ℤ,
      (srcC1 a b).r < 100 ∧ (srcC1 a b).g < 100 ∧ (srcC1 a b).b < 100 := by
    intro a b
    unfold srcC1
    split <;> norm_num
  have hfetchB : ∀ gx gy : ℤ,
      (PipelineProcessor.getSrcPixel ⟨0, 0, 8, 1⟩ srcC1 gx gy).r < 100 ∧
      (PipelineProcessor.getSrcPixel ⟨0, 0, 8, 1⟩ srcC1 gx gy).g < 100 ∧
      (PipelineProcessor.getSrcPixel ⟨0, 0, 8, 1⟩ srcC1 gx gy).b < 100 := by
    intro gx gy
    unfold PipelineProcessor.getSrcPixel
    split
    · exact hsv _ _
    · split
      · exact hsv _ _
      · norm_num
  have hs0 : ∀ (fs iW iH bX bY : ℤ) (y x : ℕ),
      PipelineProcessor.stage0 opsPowId procC1 ⟨0, 0, 8, 1⟩ srcC1 bX bY fs iW iH
          y x =
        ⟨(PipelineProcessor.getSrcPixel ⟨0, 0, 8, 1⟩ srcC1 (bX + (x : ℤ))
            (bY + (y : ℤ))).r,
         (PipelineProcessor.getSrcPixel ⟨0, 0, 8, 1⟩ srcC1 (bX + (x : ℤ))
            (bY + (y : ℤ))).g,
         (PipelineProcessor.getSrcPixel ⟨0, 0, 8, 1⟩ srcC1 (bX + (x : ℤ))
            (bY + (y : ℤ))).b, 1⟩ := by
    intro fs iW iH bX bY y x
    unfold PipelineProcessor.stage0
    dsimp only
    rw [if_neg (show ¬(procC1.cit.enable = true) from by decide)]
    rw [if_neg (show ¬(procC1.pcr.enable = true) from by decide)]
    rw [htonal]
    rw [if_neg (show ¬(procC1.energy.enable = true) from by decide)]
    rw [hhlp _ (hfetchB _ _).1 (hfetchB _ _).2.1 (hfetchB _ _).2.2]
    rw [if_neg (show ¬(procC1.split.enable = true) from by decide)]
    rw [if_neg (show ¬(procC1.grain.enable = true) from by decide)]
    rw [if_neg (show ¬(procC1.dither.enable = true) from by decide)]
  have hmistS : ∀ (b : ℕ → ℕ → Pix) (w h : ℕ),
      PipelineProcessor.mistStage opsPowId procC1 b w h = b := by
    intro b w h
    unfold PipelineProcessor.mistStage
    rw [if_neg (show ¬(procC1.mist.enable = true) from by decide)]
  have hblurS : ∀ (b : ℕ → ℕ → Pix) (w h : ℕ),
      PipelineProcessor.dreamyBlurStage opsPowId procC1 b w h = b := by
    intro b w h
    unfold PipelineProcessor.dreamyBlurStage
    rw [if_neg (show ¬(procC1.blur.enable = true) from by decide)]
  have hglowS : ∀ (b : ℕ → ℕ → Pix) (w h : ℕ),
      PipelineProcessor.glowStage opsPowId procC1 b w h = b := by
    intro b w h
    unfold PipelineProcessor.glowStage
    rw [if_neg (show ¬(procC1.glow.enable = true) from by decide)]
  have hsharpS : ∀ (b : ℕ → ℕ → Pix) (w h : ℕ),
      PipelineProcessor.sharpStage procC1 b w h = b := by
    intro b w h
    unfold PipelineProcessor.sharpStage
    rw [if_neg (show ¬(procC1.sharp.enable = true) from by decide)]
  have hhaloS : ∀ (b : ℕ → ℕ → Pix) (w h : ℕ),
      PipelineProcessor.haloStage opsPowId procC1 b w h = b := by
    intro b w h
    unfold PipelineProcessor.haloStage
    rw [if_neg (show ¬(procC1.halo.enable = true) from by decide)]
  have hcaS : ∀ (iW iH bX bY : ℤ) (b : ℕ → ℕ → Pix) (w h : ℕ),
      PipelineProcessor.caStage opsPowId procC1 iW iH bX bY b w h = b := by
    intro iW iH bX bY b w h
    unfold PipelineProcessor.caStage
    rw [if_neg (show ¬(procC1.ca.enable = true) from by decide)]
  have hvigS : ∀ (iW iH bX bY : ℤ) (b : ℕ → ℕ → Pix) (w h : ℕ),
      PipelineProcessor.vigStage opsPowId procC1 iW iH bX bY b w h = b := by
    intro iW iH bX bY b w h
    unfold PipelineProcessor.vigStage
    rw [if_neg (show ¬(procC1.vig.enable = true) from by decide)]
  have hsLen :
      (max 1 (truncQ (procC1.streak.length * 80 * procC1.renderScaleX))).toNat =
        1 := by
    norm_num [procC1, procAllOff, truncQ, max_def]
  have hA : PipelineProcessor.process opsPowId procC1 ⟨0, 0, 8, 1⟩ srcC1
      ⟨0, 0, 4, 1⟩ 3 0 = ⟨8/27, 8/27, 8/27, 1⟩ := by
    unfold PipelineProcessor.process
    dsimp only
    rw [hap]
    rw [hvigS, hcaS, hhaloS, hsharpS, hglowS, hblurS, hmistS]
    rw [show ((4 + 2 : ℤ) - (0 - 2)).toNat = 8 from by decide,
        show ((1 + 2 : ℤ) - (0 - 2)).toNat = 5 from by decide,
        show ((0 : ℤ) - (0 - 2)).toNat = 2 from by decide,
        show ((3 : ℤ) - (0 - 2)).toNat = 5 from by decide]
    unfold PipelineProcessor.streakStage
    rw [if_pos (show procC1.streak.enable = true from by decide)]
    dsimp only [Pix.rgb]
    rw [AnamorphicStreak.boxBlurH1D_eq_boxBlurH, hsLen]
    simp only [hs0]
    rw [@boxBlurH1_eval _ 8 5 2 5 (by norm_num)]
    norm_num [min_def]
    rw [@boxBlurH1_eval _ 8 5 2 4 (by norm_num),
        @boxBlurH1_eval _ 8 5 2 5 (by norm_num),
        @boxBlurH1_eval _ 8 5 2 6 (by norm_num)]
    norm_num [min_def]
    rw [@boxBlurH1_eval _ 8 5 2 3 (by norm_num),
        @boxBlurH1_eval _ 8 5 2 4 (by norm_num),
        @boxBlurH1_eval _ 8 5 2 5 (by norm_num),
        @boxBlurH1_eval _ 8 5 2 6 (by norm_num),
        @boxBlurH1_eval _ 8 5 2 7 (by norm_num)]
    norm_num [min_def, AnamorphicStreak.computeStreakSource,
      AnamorphicStreak.applyStreak, PipelineProcessor.getSrcPixel, srcC1,
      Utils.getLuminance, Utils.smoothstep, max_def, procC1, procAllOff]
  have hB : PipelineProcessor.process opsPowId procC1 ⟨0, 0, 8, 1⟩ srcC1
      ⟨0, 0, 8, 1⟩ 3 0 = ⟨2/9, 2/9, 2/9, 1⟩ := by
    unfold PipelineProcessor.process
    dsimp only
    rw [hap]
    rw [hvigS, hcaS, hhaloS, hsharpS, hglowS, hblurS, hmistS]
    rw [show ((8 + 2 : ℤ) - (0 - 2)).toNat = 12 from by decide,
        show ((1 + 2 : ℤ) - (0 - 2)).toNat = 5 from by decide,
        show ((0 : ℤ) - (0 - 2)).toNat = 2 from by decide,
        show ((3 : ℤ) - (0 - 2)).toNat = 5 from by decide]
    unfold PipelineProcessor.streakStage
    rw [if_pos (show procC1.streak.enable = true from by decide)]
    dsimp only [Pix.rgb]
    rw [AnamorphicStreak.boxBlurH1D_eq_boxBlurH, hsLen]
    simp only [hs0]
    rw [@boxBlurH1_eval _ 12 5 2 5 (by norm_num)]
    norm_num [min_def]
    rw [@boxBlurH1_eval _ 12 5 2 4 (by norm_num),
        @boxBlurH1_eval _ 12 5 2 5 (by norm_num),
        @boxBlurH1_eval _ 12 5 2 6 (by norm_num)]
    norm_num [min_def]
    rw [@boxBlurH1_eval _ 12 5 2 3 (by norm_num),
        @boxBlurH1_eval _ 12 5 2 4 (by norm_num),
        @boxBlurH1_eval _ 12 5 2 5 (by norm_num),
        @boxBlurH1_eval _ 12 5 2 6 (by norm_num),
        @boxBlurH1_eval _ 12 5 2 7 (by norm_num)]
    norm_num [min_def, AnamorphicStreak.computeStreakSource,
      AnamorphicStreak.applyStreak, PipelineProcessor.getSrcPixel, srcC1,
      Utils.getLuminance, Utils.smoothstep, max_def, procC1, procAllOff]
  refine ⟨hA, hB, ?_⟩
  rw [hA, hB]
  intro hcontra
  have hr := congrArg Pix.r hcontra
  norm_num at hr
